import Mathlib

set_option autoImplicit false

/-!
A shallow embedding of the vnext-cli Reference Resolution & Validation
Engine (`src/lib/ref-resolver.js`) and the Build Transformation Pipeline
(`resolveReferencesToPayload` and the build command of the CLI entry file),
together with theorems settling the frozen claims about them.

JSON documents are modelled by the inductive type `Json`; JavaScript
objects are association lists that preserve insertion order (JSON parsing
yields unique keys).  File-system and registry contents, and the AJV
schema-validation verdict (an external library), are supplied by an
environment record `Env`; the mutable fields of a `RefResolver` instance
are a state record `RunState` threaded explicitly.  I/O operations and
validation passes are counted in the state so that claims about caching
("no additional I/O, no re-validation") are expressible.
-/

/-- JSON values, as produced by `JSON.parse` / `fs.readJSON`.  Numbers are
modelled as integers (no claim involves fractional arithmetic). -/
inductive Json where
  | null
  | bool (b : Bool)
  | num (n : Int)
  | str (s : String)
  | arr (items : List Json)
  | obj (fields : List (String × Json))

mutual
def beqJson : Json → Json → Bool
  | .null, .null => true
  | .bool a, .bool b => a == b
  | .num a, .num b => a == b
  | .str a, .str b => a == b
  | .arr xs, .arr ys => beqJsonList xs ys
  | .obj fs, .obj gs => beqJsonFields fs gs
  | _, _ => false
def beqJsonList : List Json → List Json → Bool
  | [], [] => true
  | x :: xs, y :: ys => beqJson x y && beqJsonList xs ys
  | _, _ => false
def beqJsonFields : List (String × Json) → List (String × Json) → Bool
  | [], [] => true
  | (k, v) :: fs, (k', v') :: gs => k == k' && beqJson v v' && beqJsonFields fs gs
  | _, _ => false
end

mutual
/-- `beqJson` decides equality (a proof object used by the `DecidableEq`
instance below, stated as a `def` since the instance definition needs it). -/
def beqJsonIff : ∀ a b : Json, beqJson a b = true ↔ a = b
  | .null, b => by cases b <;> simp [beqJson]
  | .bool _, b => by cases b <;> simp [beqJson]
  | .num _, b => by cases b <;> simp [beqJson]
  | .str _, b => by cases b <;> simp [beqJson]
  | .arr xs, b => by
      cases b <;> simp [beqJson, beqJsonListIff xs]
  | .obj fs, b => by
      cases b <;> simp [beqJson, beqJsonFieldsIff fs]
def beqJsonListIff : ∀ xs ys : List Json, beqJsonList xs ys = true ↔ xs = ys
  | [], ys => by cases ys <;> simp [beqJsonList]
  | x :: xs, ys => by
      cases ys with
      | nil => simp [beqJsonList]
      | cons y ys => simp [beqJsonList, beqJsonIff x y, beqJsonListIff xs ys]
def beqJsonFieldsIff :
    ∀ fs gs : List (String × Json), beqJsonFields fs gs = true ↔ fs = gs
  | [], gs => by cases gs <;> simp [beqJsonFields]
  | (k, v) :: fs, gs => by
      cases gs with
      | nil => simp [beqJsonFields]
      | cons g gs =>
        cases g with
        | mk k' v' =>
          simp [beqJsonFields, beqJsonIff v v', beqJsonFieldsIff fs gs]
end

instance : DecidableEq Json := fun a b =>
  decidable_of_iff (beqJson a b = true) (beqJsonIff a b)

/-- JavaScript property access `obj[k]`: `none` models `undefined`.
Property access on non-objects used by the source always targets plain
data keys, which are `undefined` on arrays and primitives. -/
def Json.getField : Json → String → Option Json
  | .obj fields, k => (fields.find? (fun p => p.1 == k)).map Prod.snd
  | _, _ => none

/-- JavaScript truthiness of a possibly-absent value (`undefined`, `null`,
`false`, `0` and `""` are falsy). -/
def truthy : Option Json → Bool
  | some (.bool b) => b
  | some (.num n) => n != 0
  | some (.str s) => s != ""
  | some (.arr _) => true
  | some (.obj _) => true
  | _ => false

/-- Truthiness of an optional JavaScript string (absent or empty is falsy). -/
def truthyStr : Option String → Bool
  | some s => s != ""
  | none => false

/-- `fields[k] = v`: replace the value in place if the key exists,
otherwise append the new entry (JavaScript object-key insertion order). -/
def setAssoc {α : Type} : List (String × α) → String → α → List (String × α)
  | [], k, v => [(k, v)]
  | (k', v') :: fs, k, v =>
      if k' = k then (k', v) :: fs else (k', v') :: setAssoc fs k v

/-- The entry list produced by spreading a value into an object literal
(`{...base}`): objects give their fields, arrays index/value pairs,
strings index/character pairs, primitives nothing. -/
def jsSpreadBase : Json → List (String × Json)
  | .obj fs => fs
  | .arr xs => (xs.enum.map (fun p => (toString p.1, p.2)))
  | .str s => (s.data.enum.map (fun p => (toString p.1, Json.str (String.mk [p.2]))))
  | _ => []

/-- `{...base, k₁ : v₁, ...}`: spread followed by the extra entries. -/
def jsSpread (base : Json) (extras : List (String × Json)) : Json :=
  .obj (extras.foldl (fun fs p => setAssoc fs p.1 p.2) (jsSpreadBase base))

/-- Assignment `j[k] = v` on an (assumed) object; other values are left
unchanged (the source only assigns into parsed JSON objects). -/
def jsSetJ (j : Json) (k : String) (v : Json) : Json :=
  match j with
  | .obj fs => .obj (setAssoc fs k v)
  | other => other

mutual
/-- JavaScript string coercion (template literals, `String(x)`). -/
def jsToString : Json → String
  | .null => "null"
  | .bool b => if b then "true" else "false"
  | .num n => toString n
  | .str s => s
  | .arr xs => jsArrString xs
  | .obj _ => "[object Object]"
/-- `Array.prototype.toString` joins elements with `,`; `null` elements
render as the empty string inside a join. -/
def jsArrString : List Json → String
  | [] => ""
  | [x] => jsElemString x
  | x :: xs => jsElemString x ++ "," ++ jsArrString xs
def jsElemString : Json → String
  | .null => ""
  | .bool b => if b then "true" else "false"
  | .num n => toString n
  | .str s => s
  | .arr xs => jsArrString xs
  | .obj _ => "[object Object]"
end

/-- Coercion of a possibly-absent value (`undefined` renders as
`"undefined"` in a template literal). -/
def jsToStringOpt : Option Json → String
  | some j => jsToString j
  | none => "undefined"

/-- `a || b` on a possibly-absent left operand. -/
def jsOr (a : Option Json) (b : Json) : Json :=
  if truthy a then a.getD .null else b

def strStartsWith (s p : String) : Bool := p.data.isPrefixOf s.data

def strEndsWith (s p : String) : Bool := p.data.isSuffixOf s.data

def infixOfAux (p : List Char) : List Char → Bool
  | [] => p.isPrefixOf []
  | x :: xs => p.isPrefixOf (x :: xs) || infixOfAux p xs

def strContains (s p : String) : Bool := infixOfAux p.data s.data

/-- Split a character list on a separator character (JavaScript
`String.prototype.split` semantics: `""` splits to `[""]`). -/
def splitOnCharList (c : Char) : List Char → List (List Char)
  | [] => [[]]
  | x :: xs =>
      let r := splitOnCharList c xs
      if x = c then [] :: r
      else
        match r with
        | [] => [[x]]
        | g :: gs => (x :: g) :: gs

def splitOnStr (s : String) (c : Char) : List String :=
  (splitOnCharList c s.data).map String.mk

def joinWith (sep : String) : List String → String
  | [] => ""
  | [x] => x
  | x :: xs => x ++ sep ++ joinWith sep xs

/-- Break a character list at the first occurrence of `c`; `none` in the
second component means `c` does not occur. -/
def breakAtChar (c : Char) : List Char → List Char × Option (List Char)
  | [] => ([], none)
  | x :: xs =>
      if x = c then ([], some xs)
      else
        let r := breakAtChar c xs
        (x :: r.1, r.2)

def isDigits (s : String) : Bool := s != "" && s.data.all Char.isDigit

/-- `path.basename(p)`: the part after the last slash. -/
def basenameStr (p : String) : String := (splitOnStr p '/').getLastD ""

/-- `path.basename(p, '.json')`: basename with a matching `.json`
extension stripped (Node keeps the name unchanged when the whole basename
equals the extension). -/
def basenameNoJson (p : String) : String :=
  let b := basenameStr p
  if b ≠ ".json" && strEndsWith b ".json" then
    String.mk (b.data.take (b.data.length - 5))
  else b

/-- Numeric identifier of the semver grammar: digits with no leading zero. -/
def numericIdent (s : String) : Bool :=
  isDigits s && (s == "0" || !strStartsWith s "0")

def prereleaseIdent (s : String) : Bool :=
  if isDigits s then numericIdent s
  else s != "" && s.data.all (fun c => c.isAlphanum || c = '-')

def buildIdent (s : String) : Bool :=
  s != "" && s.data.all (fun c => c.isAlphanum || c = '-')

/-- Model of `semver.valid` from the npm `semver` package (an external
dependency): its strict grammar is an optional `v`, three dot-separated
numeric identifiers, an optional `-` prerelease and an optional `+` build
part; non-strings are rejected by the library. -/
def semverValid (s : String) : Bool :=
  let cs := if strStartsWith s "v" then s.data.drop 1 else s.data
  let corePre := breakAtChar '+' cs
  let buildOk :=
    match corePre.2 with
    | none => true
    | some b => ((splitOnCharList '.' b).map String.mk).all buildIdent
  let mainPre := breakAtChar '-' corePre.1
  let mainOk :=
    match (splitOnCharList '.' mainPre.1).map String.mk with
    | [a, b, c] => numericIdent a && numericIdent b && numericIdent c
    | _ => false
  let preOk :=
    match mainPre.2 with
    | none => true
    | some p => ((splitOnCharList '.' p).map String.mk).all prereleaseIdent
  mainOk && preOk && buildOk

/-- `semver.valid` applied to a JSON value: only strings can be valid. -/
def semverValidJ : Option Json → Bool
  | some (.str s) => semverValid s
  | _ => false

/-- The key pattern `/^[a-z0-9-]+$/`. -/
def keyPatternStr (s : String) : Bool :=
  s != "" && s.data.all (fun c => (('a' ≤ c && c ≤ 'z') || c.isDigit || c = '-'))

/-- The version pattern `/^\d+\.\d+\.\d+$/` used by the business checks. -/
def versionTriple (s : String) : Bool :=
  match (splitOnCharList '.' s.data).map String.mk with
  | [a, b, c] => isDigits a && isDigits b && isDigits c
  | _ => false

/-- `extractVersionFromFilename`: match of `/\.(\d+\.\d+\.\d+)\.json$/`.
The regex matches exactly when the dot-separated segments of the name end
in three all-digit segments followed by a final `json` segment, with at
least one further segment in front (the leading literal dot). -/
def extractVersionFromFilename (filename : String) : Option String :=
  let parts := splitOnStr filename '.'
  let n := parts.length
  if n ≥ 5 && parts.getLastD "" == "json" &&
      isDigits (parts.getD (n - 4) "") && isDigits (parts.getD (n - 3) "") &&
      isDigits (parts.getD (n - 2) "") then
    some (parts.getD (n - 4) "" ++ "." ++ parts.getD (n - 3) "" ++ "." ++ parts.getD (n - 2) "")
  else none

structure ParsedRef where
  isLocal : Bool
  packageName : Option String
  filePath : String
  version : Option String
  filename : String
  deriving DecidableEq

/-- `parseRef`: a ref not starting with `@` is local; otherwise it must
match `/^(@[^/]+\/[^/]+)\/(.+)$/`. -/
def parseRef (ref : String) : Except String ParsedRef :=
  if !strStartsWith ref "@" then
    .ok ⟨true, none, ref, extractVersionFromFilename ref, basenameNoJson ref⟩
  else
    match splitOnStr ref '/' with
    | p0 :: p1 :: rest =>
        let fp := joinWith "/" rest
        if p0.data.length ≥ 2 && p1 != "" && !rest.isEmpty && fp != "" then
          .ok ⟨false, some (p0 ++ "/" ++ p1), fp, extractVersionFromFilename fp,
              basenameNoJson fp⟩
        else .error ("Invalid reference format: " ++ ref)
    | _ => .error ("Invalid reference format: " ++ ref)

/-- The common tail of `validateReferenceConsistency`: well-formedness of
`content.version` (when truthy) and of `content.key`. -/
def consistencyTail (ref : String) (content : Json) : Except String Unit :=
  let cv := content.getField "version"
  if truthy cv && !semverValidJ cv then
    .error ("Reference consistency validation failed for '" ++ ref ++ "': " ++
      "invalid version format '" ++ jsToStringOpt cv ++
      "'. Expected semantic version (e.g., '1.0.0')")
  else if !keyPatternStr (jsToStringOpt (content.getField "key")) then
    .error ("Reference consistency validation failed for '" ++ ref ++ "': " ++
      "invalid key format '" ++ jsToStringOpt (content.getField "key") ++
      "'. Expected lowercase letters, numbers, and hyphens only")
  else .ok ()

/-- `validateReferenceConsistency`: filename/content agreement, in the
legacy (versioned filename) or new (version-free filename) convention. -/
def validateReferenceConsistency (ref : String) (content : Json) (p : ParsedRef) :
    Except String Unit :=
  let filename := basenameNoJson p.filePath
  let ck := content.getField "key"
  let cv := content.getField "version"
  match p.version with
  | some v =>
      if !truthy cv then
        .error ("Reference consistency validation failed for '" ++ ref ++ "': " ++
          "filename '" ++ filename ++ "' contains version but content has no version property")
      else
        let expectedPattern := jsToStringOpt ck ++ "." ++ jsToStringOpt cv
        if filename ≠ expectedPattern then
          .error ("Reference consistency validation failed for '" ++ ref ++ "': " ++
            "filename '" ++ filename ++ "' does not match component key '" ++
            jsToStringOpt ck ++ "' and version '" ++ jsToStringOpt cv ++
            "'. Expected filename: '" ++ expectedPattern ++ ".json'")
        else if cv ≠ some (.str v) then
          .error ("Reference consistency validation failed for '" ++ ref ++ "': " ++
            "filename version '" ++ v ++ "' does not match content version '" ++
            jsToStringOpt cv ++ "'")
        else consistencyTail ref content
  | none =>
      if ck ≠ some (.str filename) then
        .error ("Reference consistency validation failed for '" ++ ref ++ "': " ++
          "filename '" ++ filename ++ "' does not match component key '" ++
          jsToStringOpt ck ++ "'. Expected filename: '" ++ jsToStringOpt ck ++ ".json'")
      else consistencyTail ref content

/-- Resolver options (`this.options`); the path-valued options are folded
into the environment. -/
structure ResolverOpts where
  strictMode : Bool
  validateSchemas : Bool
  validateReferenceConsistency : Bool
  deriving DecidableEq

/-- A materialized external package: its files keyed by package-relative
path (including `vnext.config.json`). -/
structure Package where
  files : List (String × Json)
  deriving DecidableEq

/-- The world a run executes against: local component files keyed by their
path below the working directory, the registry/archive of external
packages, the schema directory, the AJV compiled-validator verdict (an
external library, modelled as a deterministic oracle returning `none` for
valid or `some errs` with formatted error details), and the current wall
clock reading `now` used for `_resolvedAt` / `buildTimestamp`. -/
structure Env where
  localFiles : List (String × Json)
  packages : List (String × Package)
  schemaFiles : List (String × Json)
  ajv : Json → Json → Option String
  now : String

/-- The mutable fields of one `RefResolver` instance, plus instrumentation
counters for file/registry I/O operations and validation passes, and the
warnings printed so far. -/
structure RunState where
  opts : ResolverOpts
  currentDomain : Option String
  refCache : List (String × Json)
  compiledValidators : List (String × Json)
  ioCount : Nat
  consistencyChecks : Nat
  schemaChecks : Nat
  warnings : List String
  deriving DecidableEq

/-- A freshly constructed resolver: empty caches, no domain bound. -/
def initState (opts : ResolverOpts) : RunState :=
  ⟨opts, none, [], [], 0, 0, 0, []⟩

/-- The contents of one export category: an array when present (the
manifest shape), nothing otherwise (`exports.cat || []`). -/
def asArrList : Option Json → List Json
  | some (.arr xs) => xs
  | _ => []

/-- `isComponentExported`: requires a truthy `exports`, visibility not
`private`, and the file's basename listed in one of the six export
category arrays. -/
def isComponentExported (filePath : String) (packageConfig : Json) : Bool :=
  let ex := packageConfig.getField "exports"
  if !truthy ex then false
  else
    let exj := ex.getD .null
    if exj.getField "visibility" == some (.str "private") then false
    else
      let filename := basenameStr filePath
      let allExports :=
        asArrList (exj.getField "functions") ++ asArrList (exj.getField "workflows") ++
        asArrList (exj.getField "tasks") ++ asArrList (exj.getField "views") ++
        asArrList (exj.getField "schemas") ++ asArrList (exj.getField "extensions")
      allExports.contains (.str filename)

/-- `resolveLocalRef`: read `<cwd>/<currentDomain || ''>/<filePath>`
(paths are modelled relative to the working directory) and attach
provenance fields. -/
def resolveLocalRef (env : Env) (st : RunState) (p : ParsedRef) (currentDomain : Option String) :
    RunState × Except String Json :=
  let path :=
    if truthyStr currentDomain then (currentDomain.getD "") ++ "/" ++ p.filePath
    else p.filePath
  let st := { st with ioCount := st.ioCount + 1 }
  match List.lookup path env.localFiles with
  | none => (st, .error ("Local file not found: " ++ path))
  | some content =>
      ({ st with ioCount := st.ioCount + 1 },
       .ok (jsSpread content
        [("_resolvedFrom", .str ("local:" ++ p.filePath)), ("_resolvedAt", .str env.now)]))

/-- `ensurePackage`: the Archive Provider collaborator.  A package present
in the environment is served from the (possibly fresh) cache; a missing
one makes the download step fail. -/
def ensurePackage (env : Env) (st : RunState) (packageName : String) :
    RunState × Except String Package :=
  let st := { st with ioCount := st.ioCount + 1 }
  match List.lookup packageName env.packages with
  | some pkg => (st, .ok pkg)
  | none =>
      (st, .error ("Failed to download package " ++ packageName ++ ": package not available"))

/-- `resolveExternalRef`: materialize the package, require its
`vnext.config.json`, gate on the export list, then read the component
file and attach provenance (including `_packageVersion`). -/
def resolveExternalRef (env : Env) (st : RunState) (p : ParsedRef) :
    RunState × Except String Json :=
  let name := p.packageName.getD ""
  let r := ensurePackage env st name
  match r.2 with
  | .error e => (r.1, .error e)
  | .ok pkg =>
      let st := { r.1 with ioCount := r.1.ioCount + 1 }
      match List.lookup "vnext.config.json" pkg.files with
      | none => (st, .error ("Package " ++ name ++ " does not contain vnext.config.json"))
      | some packageConfig =>
          if !isComponentExported p.filePath packageConfig then
            (st, .error ("Component " ++ p.filePath ++ " is not exported by " ++ name))
          else
            let st := { st with ioCount := st.ioCount + 1 }
            match List.lookup p.filePath pkg.files with
            | none => (st, .error ("Component file not found: " ++ name ++ "/" ++ p.filePath))
            | some content =>
                (st,
                 .ok (jsSpread content
                  [("_resolvedFrom", .str (name ++ ":" ++ p.filePath)),
                   ("_resolvedAt", .str env.now),
                   ("_packageVersion", (packageConfig.getField "version").getD .null)]))

/-- `cleanMetadataFields`: strip the resolver-added provenance fields. -/
def cleanMetadataFields (component : Json) : Json :=
  match component with
  | .obj fs =>
      .obj (fs.filter (fun p =>
        p.1 ≠ "_resolvedFrom" && p.1 ≠ "_resolvedAt" && p.1 ≠ "_packageVersion"))
  | other => other

/-- `detectComponentType`: component kind inferred from a path segment. -/
def detectComponentType (filePath : String) : String :=
  if strContains filePath "Tasks/" then "task"
  else if strContains filePath "Workflows/" then "workflow"
  else if strContains filePath "Functions/" then "function"
  else if strContains filePath "Views/" then "view"
  else if strContains filePath "Schemas/" then "schema"
  else if strContains filePath "Extensions/" then "extension"
  else "unknown"

/-- `detectComponentTypeFromFlow`: component kind from the `flow` value. -/
def detectComponentTypeFromFlow (flow : Json) : String :=
  if flow == .str "sys-tasks" then "task"
  else if flow == .str "sys-flows" then "workflow"
  else if flow == .str "sys-functions" then "function"
  else if flow == .str "sys-views" then "view"
  else if flow == .str "sys-schemas" then "schema"
  else if flow == .str "sys-extensions" then "extension"
  else "unknown"

/-- `typeof x === 'object'` (true for objects, arrays and `null`). -/
def typeofObject : Json → Bool
  | .obj _ => true
  | .arr _ => true
  | .null => true
  | _ => false

def isJsonArr : Json → Bool
  | .arr _ => true
  | _ => false

/-- `validateGeneralTemplate`: the five generic required fields, semver
checks on `version`/`flowVersion`, the flow enum, and the shape of
`tags`/`attributes`. -/
def validateGeneralTemplate (component : Json) : Except String Unit :=
  let req := ["key", "version", "domain", "flow", "flowVersion"]
  match req.find? (fun f => !truthy (component.getField f)) with
  | some f => .error ("Missing required field: " ++ f)
  | none =>
    if !semverValidJ (component.getField "version") then
      .error ("Invalid version format: " ++ jsToStringOpt (component.getField "version") ++
        ". Expected semantic version (e.g., '1.0.0')")
    else if !semverValidJ (component.getField "flowVersion") then
      .error ("Invalid flowVersion format: " ++ jsToStringOpt (component.getField "flowVersion") ++
        ". Expected semantic version (e.g., '1.0.0')")
    else
      let validFlows := ["sys-tasks", "sys-flows", "sys-functions", "sys-views",
        "sys-schemas", "sys-extensions"]
      if !validFlows.any (fun f => component.getField "flow" == some (.str f)) then
        .error ("Invalid flow value: " ++ jsToStringOpt (component.getField "flow") ++
          ". Must be one of: sys-tasks, sys-flows, sys-functions, sys-views, sys-schemas, sys-extensions")
      else if truthy (component.getField "tags") &&
          !isJsonArr ((component.getField "tags").getD .null) then
        .error "Tags must be an array"
      else if truthy (component.getField "attributes") &&
          !typeofObject ((component.getField "attributes").getD .null) then
        .error "Attributes must be an object"
      else .ok ()

/-- `validateJsonSchema`: structural validation of an embedded JSON Schema
document; every failure is wrapped with `JSON Schema validation failed:`. -/
def validateJsonSchema (schema : Json) : Except String Unit :=
  let wrap : String → Except String Unit := fun m =>
    .error ("JSON Schema validation failed: " ++ m)
  if !typeofObject schema || schema == .null then wrap "Schema must be an object"
  else
    let req := ["$schema", "$id", "title", "description", "type"]
    match req.find? (fun f => !truthy (schema.getField f)) with
    | some f => wrap ("JSON Schema missing required field: " ++ f)
    | none =>
      match schema.getField "$schema" with
      | some (.str s) =>
        if !strStartsWith s "https://json-schema.org/" then
          wrap "Invalid $schema format. Must be a valid JSON Schema URI"
        else
          match schema.getField "$id" with
          | some (.str i) =>
            if !strStartsWith i "https://" then
              wrap "Invalid $id format. Must be a valid HTTPS URI"
            else if truthy (schema.getField "properties") &&
                !typeofObject ((schema.getField "properties").getD .null) then
              wrap "Invalid JSON Schema structure: properties must be an object"
            else if truthy (schema.getField "required") &&
                !isJsonArr ((schema.getField "required").getD .null) then
              wrap "Invalid JSON Schema structure: required must be an array"
            else .ok ()
          | _ => wrap "Invalid $id format. Must be a valid HTTPS URI"
      | _ => wrap "Invalid $schema format. Must be a valid JSON Schema URI"

/-- `performBusinessValidations`: non-fatal warnings only. -/
def performBusinessValidations (component : Json) : List String :=
  (if !truthy (component.getField "key") then ["Missing required 'key' field"] else []) ++
  (if truthy (component.getField "version") &&
      !versionTriple (jsToStringOpt (component.getField "version")) then
    ["Version should follow semantic versioning (x.y.z)"] else []) ++
  (if truthy (component.getField "key") &&
      !keyPatternStr (jsToStringOpt (component.getField "key")) then
    ["Key should contain only lowercase letters, numbers, and hyphens"] else [])

/-- `validateSysSchemaComponent`: general template, the `attributes.type`
kind check (when present), structural validation of `attributes.schema`
when present — a missing `attributes.schema` only logs a warning — then
the business warnings. -/
def validateSysSchemaComponent (component : Json) (filePath : String) :
    Except String Unit × List String :=
  match validateGeneralTemplate component with
  | .error e => (.error e, [])
  | .ok _ =>
      let attrs := component.getField "attributes"
      let aj := attrs.getD .null
      let ty := aj.getField "type"
      let validSchemaTypes := ["workflow", "task", "function", "view", "schema", "extension"]
      if truthy attrs && truthy ty &&
          !validSchemaTypes.any (fun t => ty == some (.str t)) then
        (.error ("Invalid schema type: '" ++ jsToStringOpt ty ++
          "'. Must be one of: workflow, task, function, view, schema, extension"), [])
      else if truthy attrs && truthy (aj.getField "schema") then
        match validateJsonSchema ((aj.getField "schema").getD .null) with
        | .error e => (.error e, [])
        | .ok _ => (.ok (), performBusinessValidations component)
      else
        (.ok (), ("sys-schemas component missing attributes.schema: " ++ filePath) ::
          performBusinessValidations component)

/-- The ref-object condition of `_makeVersionOptionalRecursive`:
`obj.properties && obj.properties.ref && obj.properties.version`. -/
def refVersionCond (fs : List (String × Json)) : Bool :=
  let props := Json.getField (.obj fs) "properties"
  truthy props && truthy ((props.getD .null).getField "ref") &&
    truthy ((props.getD .null).getField "version")

mutual
/-- `makeVersionOptionalInSchema` / `_makeVersionOptionalRecursive` as a
pure transformation (the source deep-clones and then mutates): on every
object whose `properties` carries truthy `ref` and `version`, filter the
string `'version'` out of an array-valued `required` (deleting the key
when the filter empties it), recursing into all object-typed values.  The
source filters the `required` array before the recursive pass re-visits
it; here the filter is applied to the recursed elements, which is the
same list because the transformation maps the string `'version'` (and
only it) to itself.  JSON objects have unique keys, so handling each
`required` entry locally matches the source's single mutation. -/
def makeVersionOptionalInSchema : Json → Json
  | .obj fs =>
      if refVersionCond fs then .obj (mvoFieldsAdj fs) else .obj (mvoFields fs)
  | .arr xs => .arr (mvoList xs)
  | j => j
def mvoFieldsAdj : List (String × Json) → List (String × Json)
  | [] => []
  | (k, .arr xs) :: fs =>
      if k = "required" then
        let filtered := (mvoList xs).filter (fun x => x ≠ .str "version")
        if filtered.isEmpty then mvoFieldsAdj fs
        else (k, .arr filtered) :: mvoFieldsAdj fs
      else (k, .arr (mvoList xs)) :: mvoFieldsAdj fs
  | (k, v) :: fs => (k, makeVersionOptionalInSchema v) :: mvoFieldsAdj fs
def mvoList : List Json → List Json
  | [] => []
  | x :: xs => makeVersionOptionalInSchema x :: mvoList xs
def mvoFields : List (String × Json) → List (String × Json)
  | [] => []
  | (k, v) :: fs => (k, makeVersionOptionalInSchema v) :: mvoFields fs
end

/-- Run the compiled AJV validator (oracle) and on success emit the
business-validation warnings; on failure produce the formatted schema
error (`formatSchemaErrors` is folded into the oracle's error string). -/
def runCompiledValidator (env : Env) (st : RunState) (modSchema cleanComponent : Json)
    (componentType : String) : RunState × Except String Unit :=
  match env.ajv modSchema cleanComponent with
  | some errs =>
      (st, .error ("Schema validation failed for " ++ componentType ++ " component:\n" ++ errs))
  | none =>
      ({ st with warnings := st.warnings ++ performBusinessValidations cleanComponent }, .ok ())

/-- `validateComponentSchema`: strip metadata, check the bound domain,
special-case `sys-schemas` components, otherwise validate against the
per-type schema compiled on first use and cached in `compiledValidators`
(a missing schema file skips validation with a warning). -/
def validateComponentSchema (env : Env) (st : RunState) (component : Json)
    (filePath : String) : RunState × Except String Unit :=
  let componentType := detectComponentType filePath
  let clean := cleanMetadataFields component
  if truthy (clean.getField "domain") && truthyStr st.currentDomain &&
      clean.getField "domain" ≠ some (.str (st.currentDomain.getD "")) then
    (st, .error ("Domain mismatch: expected '" ++ st.currentDomain.getD "" ++
      "', found '" ++ jsToStringOpt (clean.getField "domain") ++ "'"))
  else if clean.getField "flow" == some (.str "sys-schemas") then
    let r := validateSysSchemaComponent clean filePath
    ({ st with warnings := st.warnings ++ r.2 }, r.1)
  else
    let schemaName := componentType ++ "-definition.schema.json"
    match List.lookup schemaName st.compiledValidators with
    | some modSchema => runCompiledValidator env st modSchema clean componentType
    | none =>
        let st := { st with ioCount := st.ioCount + 1 }
        match List.lookup schemaName env.schemaFiles with
        | none =>
            ({ st with warnings := st.warnings ++
              ["Schema not found: " ++ schemaName ++ ", skipping validation"] }, .ok ())
        | some schema =>
            let modSchema := makeVersionOptionalInSchema schema
            let st := { st with
              compiledValidators := setAssoc st.compiledValidators schemaName modSchema }
            runCompiledValidator env st modSchema clean componentType

/-- The error wrapper of `resolveRef`'s catch block. -/
def wrapRefErr (ref msg : String) : String :=
  "Failed to resolve reference '" ++ ref ++ "': " ++ msg

/-- The shared first step of `resolveRef` and `validateAllReferences`:
bind the passed domain when the resolver has none yet. -/
def bindDomain (st : RunState) (currentDomain : Option String) : RunState :=
  if truthyStr currentDomain && !truthyStr st.currentDomain then
    { st with currentDomain := currentDomain }
  else st

/-- `resolveRef`: bind the domain on first use, serve cache hits, else
parse, resolve locally or externally, run the enabled consistency and
schema validations, and cache only a fully successful result.  Every
failure is wrapped with the original ref string. -/
def resolveRef (env : Env) (st : RunState) (ref : String) (currentDomain : Option String) :
    RunState × Except String Json :=
  let st := bindDomain st currentDomain
  match List.lookup ref st.refCache with
  | some v => (st, .ok v)
  | none =>
    match parseRef ref with
    | .error e => (st, .error (wrapRefErr ref e))
    | .ok parsedRef =>
      let step :=
        if parsedRef.isLocal then resolveLocalRef env st parsedRef currentDomain
        else resolveExternalRef env st parsedRef
      match step.2 with
      | .error e => (step.1, .error (wrapRefErr ref e))
      | .ok resolvedContent =>
        let st := step.1
        let consStep :=
          if st.opts.validateReferenceConsistency then
            ({ st with consistencyChecks := st.consistencyChecks + 1 },
             validateReferenceConsistency ref resolvedContent parsedRef)
          else (st, .ok ())
        match consStep.2 with
        | .error e => (consStep.1, .error (wrapRefErr ref e))
        | .ok _ =>
          let st := consStep.1
          let schemaStep :=
            if st.opts.validateSchemas then
              validateComponentSchema env { st with schemaChecks := st.schemaChecks + 1 }
                resolvedContent parsedRef.filePath
            else (st, .ok ())
          match schemaStep.2 with
          | .error e => (schemaStep.1, .error (wrapRefErr ref e))
          | .ok _ =>
            ({ schemaStep.1 with
                refCache := setAssoc schemaStep.1.refCache ref resolvedContent },
             .ok resolvedContent)

/-- The classification produced by `detectReferenceFormat`. -/
structure RefFormat where
  format : String
  identifier : String
  componentType : String
  deriving DecidableEq

/-- The plain-inline branch of `detectReferenceFormat`: requires truthy
`key`, `version`, `flow` and `domain` (the falsy-`ref` condition is
checked by the caller). -/
def plainRefCheck (j : Json) : Option RefFormat :=
  if truthy (j.getField "key") && truthy (j.getField "version") &&
      truthy (j.getField "flow") && truthy (j.getField "domain") then
    some ⟨"plain",
      jsToStringOpt (j.getField "domain") ++ "/" ++ jsToStringOpt (j.getField "flow") ++
        "/" ++ jsToStringOpt (j.getField "key") ++ "." ++
        jsToStringOpt (j.getField "version"),
      detectComponentTypeFromFlow ((j.getField "flow").getD .null)⟩
  else none

/-- `detectReferenceFormat`: local ref (truthy string `ref` not starting
with `@`), external ref (starting with `@`), or plain inline reference
(truthy `key`, `version`, `flow`, `domain` and falsy `ref`); a truthy
non-string `ref` matches no classification. -/
def detectReferenceFormat (j : Json) : Option RefFormat :=
  match j.getField "ref" with
  | some (.str s) =>
      if s ≠ "" then
        if !strStartsWith s "@" then some ⟨"local", s, detectComponentType s⟩
        else some ⟨"external", s, detectComponentType s⟩
      else plainRefCheck j
  | some r => if truthy (some r) then none else plainRefCheck j
  | none => plainRefCheck j

/-- `validatePlainReference`: the lighter validator for plain inline
references — required fields, semver and key-pattern checks, and a
console warning (never an error) on domain mismatch. -/
def validatePlainReference (env : Env) (st : RunState) (obj : Json)
    (currentDomain : Option String) : RunState × Except String Json :=
  if !truthy (obj.getField "key") then
    (st, .error "Plain reference missing required property: key")
  else if !truthy (obj.getField "version") then
    (st, .error "Plain reference missing required property: version")
  else if !truthy (obj.getField "domain") then
    (st, .error "Plain reference missing required property: domain")
  else if !semverValidJ (obj.getField "version") then
    (st, .error ("Invalid version format '" ++ jsToStringOpt (obj.getField "version") ++
      "' in plain reference. Expected semantic version (e.g., '1.0.0')"))
  else if !keyPatternStr (jsToStringOpt (obj.getField "key")) then
    (st, .error ("Invalid key format '" ++ jsToStringOpt (obj.getField "key") ++
      "' in plain reference. Expected lowercase letters, numbers, and hyphens only"))
  else
    let st :=
      if truthyStr currentDomain && obj.getField "domain" ≠ some (.str (currentDomain.getD "")) then
        { st with warnings := st.warnings ++
          ["Domain mismatch in plain reference: expected '" ++ currentDomain.getD "" ++
            "', found '" ++ jsToStringOpt (obj.getField "domain") ++ "'"] }
      else st
    (st, .ok (jsSpread obj
      [("_resolvedFrom", .str "plain-reference"), ("_resolvedAt", .str env.now)]))

/-- The `details` object of a successful `resolvedRefs` entry. -/
structure RefDetails where
  key : Option Json
  version : Option Json
  domain : Option Json
  flow : Option Json
  componentType : String
  format : String
  deriving DecidableEq

/-- One `resolvedRefs` entry; `errFormat` models the top-level `format`
field that only error entries carry. -/
structure RefEntry where
  ref : String
  resolved : Option Json
  status : String
  details : Option RefDetails
  error : Option String
  errFormat : Option String
  deriving DecidableEq

structure ValidationDetails where
  total : Nat
  successful : Nat
  failed : Nat
  skipped : Nat
  deriving DecidableEq

/-- The result record of `validateAllReferences`; `errors` entries are
`(ref, error message)` pairs. -/
structure ValidationResults where
  valid : Bool
  errors : List (String × String)
  resolvedRefs : List RefEntry
  validationDetails : ValidationDetails
  deriving DecidableEq

/-- The context record threaded by `_validateReferencesRecursive`. -/
structure WalkCtx where
  isInSchemaDefinition : Bool
  isInAttributes : Bool
  deriving DecidableEq

/-- Handling of one detected reference node: resolve (or plain-validate)
it and record a success or error entry. -/
def processDetectedRef (env : Env) (info : RefFormat) (node : Json)
    (currentDomain : Option String) (acc : RunState × ValidationResults) :
    RunState × ValidationResults :=
  let step :=
    if info.format == "plain" then validatePlainReference env acc.1 node currentDomain
    else resolveRef env acc.1 info.identifier currentDomain
  match step.2 with
  | .ok resolved =>
      (step.1,
       { acc.2 with resolvedRefs := acc.2.resolvedRefs ++
          [{ ref := info.identifier,
             resolved := some (jsOr (resolved.getField "_resolvedFrom") (.str "plain-reference")),
             status := "success",
             details := some
               { key := resolved.getField "key", version := resolved.getField "version",
                 domain := resolved.getField "domain", flow := resolved.getField "flow",
                 componentType :=
                   if info.componentType ≠ "" then info.componentType
                   else detectComponentTypeFromFlow ((resolved.getField "flow").getD .null),
                 format := info.format },
             error := none, errFormat := none }] })
  | .error e =>
      (step.1,
       { acc.2 with
          valid := false,
          errors := acc.2.errors ++ [(info.identifier, e)],
          resolvedRefs := acc.2.resolvedRefs ++
            [{ ref := info.identifier, resolved := none, status := "error",
               details := none, error := some e, errFormat := some info.format }] })

mutual
/-- `_validateReferencesRecursive`: arrays element-by-element, suppression
of object classification inside `attributes.schema` subtrees, detection
and processing of reference-shaped objects, then recursion into all
entries except `ref`, propagating the context flags. -/
def validateReferencesRecursive (env : Env) (j : Json) (currentDomain : Option String)
    (ctx : WalkCtx) (acc : RunState × ValidationResults) : RunState × ValidationResults :=
  match j with
  | .arr xs => validateReferencesRecursiveList env xs currentDomain ctx acc
  | .obj fs =>
      if ctx.isInSchemaDefinition then acc
      else
        let acc1 :=
          match detectReferenceFormat (.obj fs) with
          | some info => processDetectedRef env info (.obj fs) currentDomain acc
          | none => acc
        validateReferencesRecursiveFields env fs currentDomain ctx acc1
  | _ => acc
def validateReferencesRecursiveList (env : Env) (xs : List Json)
    (currentDomain : Option String) (ctx : WalkCtx) (acc : RunState × ValidationResults) :
    RunState × ValidationResults :=
  match xs with
  | [] => acc
  | x :: rest =>
      validateReferencesRecursiveList env rest currentDomain ctx
        (validateReferencesRecursive env x currentDomain ctx acc)
def validateReferencesRecursiveFields (env : Env) (fs : List (String × Json))
    (currentDomain : Option String) (ctx : WalkCtx) (acc : RunState × ValidationResults) :
    RunState × ValidationResults :=
  match fs with
  | [] => acc
  | (k, v) :: rest =>
      if k == "ref" then validateReferencesRecursiveFields env rest currentDomain ctx acc
      else
        let ctx' : WalkCtx :=
          { isInSchemaDefinition :=
              ctx.isInSchemaDefinition || (k == "schema" && ctx.isInAttributes),
            isInAttributes := ctx.isInAttributes || k == "attributes" }
        validateReferencesRecursiveFields env rest currentDomain ctx
          (validateReferencesRecursive env v currentDomain ctx' acc)
end

/-- `validateAllReferences`: bind the domain, walk the document from a
fresh results record, then fill in the aggregate counters. -/
def validateAllReferences (env : Env) (st : RunState) (j : Json)
    (currentDomain : Option String) : RunState × ValidationResults :=
  let st := bindDomain st currentDomain
  let res0 : ValidationResults :=
    { valid := true, errors := [], resolvedRefs := [], validationDetails := ⟨0, 0, 0, 0⟩ }
  let out := validateReferencesRecursive env j currentDomain
    ⟨false, false⟩ (st, res0)
  (out.1,
   { out.2 with validationDetails :=
      { total := out.2.resolvedRefs.length,
        successful := (out.2.resolvedRefs.filter (fun r => r.status == "success")).length,
        failed := (out.2.resolvedRefs.filter (fun r => r.status == "error")).length,
        skipped := (out.2.resolvedRefs.filter (fun r => r.status == "skipped")).length } })

/-- Whether an object's fields carry a truthy string `ref` (the test of
`resolveReferencesToPayload`: `obj.ref && typeof obj.ref === 'string'`). -/
def refShapedFields (fs : List (String × Json)) : Bool :=
  match Json.getField (.obj fs) "ref" with
  | some (.str s) => s ≠ ""
  | _ => false

/-- The truthy string `ref` of a ref-shaped field list. -/
def refStringOf (fs : List (String × Json)) : String :=
  match Json.getField (.obj fs) "ref" with
  | some (.str s) => s
  | _ => ""

/-- The minimal payload `{key, version, domain, flow}` extracted from a
resolved component; keys whose value is absent are dropped, as
`JSON.stringify` drops `undefined`-valued properties on output. -/
def payloadOf (resolved : Json) : Json :=
  .obj (["key", "version", "domain", "flow"].filterMap
    (fun k => (resolved.getField k).map (fun v => (k, v))))

mutual
/-- `resolveReferencesToPayload`: replace every object carrying a truthy
string `ref` by the `{key, version, domain, flow}` payload of its resolved
component, keeping the original object when resolution fails; all other
values are rebuilt with their children processed recursively. -/
def resolveReferencesToPayload (env : Env) (st : RunState) (currentDomain : Option String) :
    Json → RunState × Json
  | .arr xs =>
      let r := rtpList env st currentDomain xs
      (r.1, .arr r.2)
  | .obj fs =>
      if refShapedFields fs then
        let r := resolveRef env st (refStringOf fs) currentDomain
        match r.2 with
        | .ok resolvedComponent => (r.1, payloadOf resolvedComponent)
        | .error _ => (r.1, .obj fs)
      else
        let r := rtpFields env st currentDomain fs
        (r.1, .obj r.2)
  | j => (st, j)
def rtpList (env : Env) (st : RunState) (currentDomain : Option String) :
    List Json → RunState × List Json
  | [] => (st, [])
  | x :: xs =>
      let r1 := resolveReferencesToPayload env st currentDomain x
      let r2 := rtpList env r1.1 currentDomain xs
      (r2.1, r1.2 :: r2.2)
def rtpFields (env : Env) (st : RunState) (currentDomain : Option String) :
    List (String × Json) → RunState × List (String × Json)
  | [] => (st, [])
  | (k, v) :: fs =>
      let r1 := resolveReferencesToPayload env st currentDomain v
      let r2 := rtpFields env r1.1 currentDomain fs
      (r2.1, (k, r1.2) :: r2.2)
end

/-- JavaScript `String.prototype.trim`. -/
def strTrim (s : String) : String :=
  String.mk ((s.data.dropWhile Char.isWhitespace).reverse.dropWhile Char.isWhitespace
    |>.reverse)

/-- The build command's `package.json` rewriting (`build`/`buildPackage`):
suffix the package name by build type, extend the description, and attach
`amorphie` metadata carrying `buildType`, `buildTimestamp` (the wall
clock) and `originalPackage`. -/
def mkBuildPackageJson (packageJson : Json) (buildType : String) (now : String) : Json :=
  let origName := packageJson.getField "name"
  let descText := fun (tag : String) =>
    strTrim (jsToString (jsOr (packageJson.getField "description") (.str "")) ++ tag)
  let renamed :=
    if buildType == "reference" then
      jsSetJ (jsSetJ packageJson "name" (.str (jsToStringOpt origName ++ "-reference")))
        "description" (.str (descText " (Reference Package for Cross-Domain Usage)"))
    else if buildType == "runtime" then
      jsSetJ (jsSetJ packageJson "name" (.str (jsToStringOpt origName ++ "-runtime")))
        "description" (.str (descText " (Runtime Package for Engine Deployment)"))
    else packageJson
  let amorphie := jsSpread ((packageJson.getField "amorphie").getD .null)
    ([("buildType", .str buildType), ("buildTimestamp", .str now)] ++
      (match origName with
       | some v => [("originalPackage", v)]
       | none => []))
  jsSetJ renamed "amorphie" amorphie

deriving instance DecidableEq for Except

def exceptOk {ε α : Type} : Except ε α → Bool
  | .ok _ => true
  | .error _ => false

mutual
/-- No node of the tree is ref-shaped in the sense of the payload rewrite
(an object with a truthy string `ref`). -/
def noRefShaped : Json → Bool
  | .arr xs => noRefShapedList xs
  | .obj fs => !refShapedFields fs && noRefShapedFields fs
  | _ => true
def noRefShapedList : List Json → Bool
  | [] => true
  | x :: xs => noRefShaped x && noRefShapedList xs
def noRefShapedFields : List (String × Json) → Bool
  | [] => true
  | (_, v) :: fs => noRefShaped v && noRefShapedFields fs
end

mutual
/-- Every resolution attempted by `resolveReferencesToPayload` on this
tree (threading the resolver state exactly as the rewrite does) succeeds. -/
def rtpAllOk (env : Env) (st : RunState) (currentDomain : Option String) : Json → Bool
  | .arr xs => rtpAllOkList env st currentDomain xs
  | .obj fs =>
      if refShapedFields fs then
        exceptOk (resolveRef env st (refStringOf fs) currentDomain).2
      else rtpAllOkFields env st currentDomain fs
  | _ => true
def rtpAllOkList (env : Env) (st : RunState) (currentDomain : Option String) :
    List Json → Bool
  | [] => true
  | x :: xs =>
      rtpAllOk env st currentDomain x &&
      rtpAllOkList env (resolveReferencesToPayload env st currentDomain x).1 currentDomain xs
def rtpAllOkFields (env : Env) (st : RunState) (currentDomain : Option String) :
    List (String × Json) → Bool
  | [] => true
  | (_, v) :: fs =>
      rtpAllOk env st currentDomain v &&
      rtpAllOkFields env (resolveReferencesToPayload env st currentDomain v).1 currentDomain fs
end

/-- An object whose keys all lie in `{key, version, domain, flow}` (in
particular it carries no `ref` key). -/
def payloadShaped : Json → Bool
  | .obj fs => fs.all (fun p =>
      p.1 == "key" || p.1 == "version" || p.1 == "domain" || p.1 == "flow")
  | _ => false

mutual
/-- Output correctness of the payload rewrite relative to its input: a
ref-shaped input location holds a payload-shaped object in the output,
and every other location keeps its structure with children related
pointwise. -/
def replacedOk : Json → Json → Bool
  | .obj fs, out =>
      if refShapedFields fs then payloadShaped out
      else
        match out with
        | .obj gs => replacedOkFields fs gs
        | _ => false
  | .arr xs, .arr ys => replacedOkList xs ys
  | .null, .null => true
  | .bool a, .bool b => a == b
  | .num a, .num b => a == b
  | .str a, .str b => a == b
  | _, _ => false
def replacedOkList : List Json → List Json → Bool
  | [], [] => true
  | x :: xs, y :: ys => replacedOk x y && replacedOkList xs ys
  | _, _ => false
def replacedOkFields : List (String × Json) → List (String × Json) → Bool
  | [], [] => true
  | (k, v) :: fs, (k', v') :: gs => k == k' && replacedOk v v' && replacedOkFields fs gs
  | _, _ => false
end

/-- A canonical `sys-schemas` component whose `attributes.schema` subtree
is the parameter `S`. -/
def sysSchemasComponent (S : Json) : Json :=
  .obj [("key", .str "order-schema"), ("version", .str "1.0.0"),
        ("domain", .str "core"), ("flow", .str "sys-schemas"),
        ("flowVersion", .str "1.0.0"),
        ("attributes", .obj [("type", .str "task"), ("schema", S)])]

/-- Spec-side restatement of the generic required-field layer for
`sys-schemas` components: the five generic fields are present,
`version`/`flowVersion` are valid semver, `flow` is one of the six flow
values, and `tags`/`attributes` have the right shapes when present. -/
def specGeneralFieldsOk (c : Json) : Bool :=
  truthy (c.getField "key") && truthy (c.getField "version") &&
  truthy (c.getField "domain") && truthy (c.getField "flow") &&
  truthy (c.getField "flowVersion") &&
  semverValidJ (c.getField "version") && semverValidJ (c.getField "flowVersion") &&
  (["sys-tasks", "sys-flows", "sys-functions", "sys-views", "sys-schemas",
    "sys-extensions"].any (fun f => c.getField "flow" == some (.str f))) &&
  (!truthy (c.getField "tags") || isJsonArr ((c.getField "tags").getD .null)) &&
  (!truthy (c.getField "attributes") || typeofObject ((c.getField "attributes").getD .null))

/-- Spec-side restatement of the structural JSON Schema check: an object
carrying `$schema`, `$id`, `title`, `description`, `type`, with `$schema`
a JSON-Schema-spec URI, `$id` an HTTPS URI, and well-shaped
`properties`/`required` when present. -/
def specJsonSchemaOk (s : Json) : Bool :=
  (typeofObject s && s ≠ .null) &&
  truthy (s.getField "$schema") && truthy (s.getField "$id") &&
  truthy (s.getField "title") && truthy (s.getField "description") &&
  truthy (s.getField "type") &&
  (match s.getField "$schema" with
   | some (.str u) => strStartsWith u "https://json-schema.org/"
   | _ => false) &&
  (match s.getField "$id" with
   | some (.str u) => strStartsWith u "https://"
   | _ => false) &&
  (!truthy (s.getField "properties") || typeofObject ((s.getField "properties").getD .null)) &&
  (!truthy (s.getField "required") || isJsonArr ((s.getField "required").getD .null))

/-- Spec-side restatement of what `validateSysSchemaComponent` accepts:
the generic layer, the `attributes.type` kind check when that field is
present and truthy, and the structural schema check when
`attributes.schema` is present and truthy (a missing `attributes.schema`
is tolerated). -/
def specSysSchemaOk (c : Json) : Bool :=
  let attrs := c.getField "attributes"
  let aj := attrs.getD .null
  specGeneralFieldsOk c &&
  (!(truthy attrs && truthy (aj.getField "type")) ||
    (["workflow", "task", "function", "view", "schema", "extension"].any
      (fun t => aj.getField "type" == some (.str t)))) &&
  (!(truthy attrs && truthy (aj.getField "schema")) ||
    specJsonSchemaOk ((aj.getField "schema").getD .null))

/-- Replace the `_resolvedAt` stamp of a resolved component (provenance
attached by the resolver) with the wall-clock reading `t`. -/
def retimeJson (t : String) (j : Json) : Json := jsSetJ j "_resolvedAt" (.str t)

/-- Retime every cached resolved component in a resolver state. -/
def retimeState (t : String) (st : RunState) : RunState :=
  { st with refCache := st.refCache.map (fun p => (p.1, retimeJson t p.2)) }

/-- Drop the `amorphie.buildTimestamp` entry of an emitted
`package.json`, leaving everything else. -/
def dropBuildTimestamp (pkg : Json) : Json :=
  match pkg.getField "amorphie" with
  | some (.obj afs) =>
      jsSetJ pkg "amorphie" (.obj (afs.filter (fun p => p.1 ≠ "buildTimestamp")))
  | _ => pkg

/-- An AJV oracle that accepts every component (schema validation outcome
for environments whose schema files are absent or permissive). -/
def ajvAccept : Json → Json → Option String := fun _ _ => none

/-- The source's constructor defaults: strict mode, schema validation and
consistency validation all enabled. -/
def defaultOpts : ResolverOpts := ⟨true, true, true⟩

/-- An environment with no files, no packages and no schemas. -/
def emptyEnv : Env := ⟨[], [], [], ajvAccept, "2024-01-01T00:00:00.000Z"⟩

/-- A well-formed task component. -/
def taskComponent : Json :=
  .obj [("key", .str "invalidate-cache"), ("version", .str "1.0.0"),
        ("domain", .str "core"), ("flow", .str "sys-tasks"),
        ("flowVersion", .str "1.0.0")]

/-- An environment holding one local task file (legacy versioned name). -/
def envWithTask : Env :=
  { emptyEnv with localFiles := [("Tasks/invalidate-cache.1.0.0.json", taskComponent)] }

/-- An environment whose local `x.json` has key `x` but a malformed
`version`. -/
def envBadVersion : Env :=
  { emptyEnv with localFiles :=
      [("x.json", .obj [("key", .str "x"), ("version", .str "not-a-version")])] }

/-- Manifest of the external package `@org/core`: it exports only
`other-task.json` under `tasks`. -/
def pkgConfigA : Json :=
  .obj [("name", .str "@org/core"), ("version", .str "1.0.0"),
        ("domain", .str "core"),
        ("exports", .obj [("tasks", .arr [.str "other-task.json"])])]

/-- The materialized package `@org/core`. -/
def pkgA : Package :=
  ⟨[("vnext.config.json", pkgConfigA), ("Tasks/other-task.json", taskComponent)]⟩

/-- An environment with the external package `@org/core` available. -/
def envExternal : Env := { emptyEnv with packages := [("@org/core", pkgA)] }

/-- A JSON Schema document whose `properties` nests a reference-shaped
object (schema example data, not a real link). -/
def schemaWithRef : Json :=
  .obj [("$schema", .str "https://json-schema.org/draft/2020-12/schema"),
        ("$id", .str "https://vnext.example.com/schemas/order.json"),
        ("title", .str "Order"), ("description", .str "An order"),
        ("type", .str "object"),
        ("properties", .obj [("task", .obj [("ref", .str "Tasks/missing.json")])])]

/-- A `sys-schemas` component whose embedded schema nests a ref-shaped
object pointing at a nonexistent file. -/
def c1Doc : Json := sysSchemasComponent schemaWithRef

/-- A document with one local reference to the task of `envWithTask`. -/
def docWithRef : Json :=
  .obj [("task", .obj [("ref", .str "Tasks/invalidate-cache.1.0.0.json")])]

/-- A `sys-schemas` component carrying `attributes.type` but no
`attributes.schema`. -/
def sysSchemaNoSchema : Json :=
  .obj [("key", .str "order-schema"), ("version", .str "1.0.0"),
        ("domain", .str "core"), ("flow", .str "sys-schemas"),
        ("flowVersion", .str "1.0.0"),
        ("attributes", .obj [("type", .str "task")])]

/-- A `package.json` document as read from a domain project. -/
def samplePackageJson : Json :=
  .obj [("name", .str "core-domain"), ("description", .str "Core domain")]

/-- The bookkeeping invariant of the walker's result record: every
recorded reference has status `success` or `error`, the error list is in
one-to-one correspondence with the error-status entries, and `valid`
holds exactly when no error-status entry exists. -/
def resultsInvariant (r : ValidationResults) : Prop :=
  (∀ e ∈ r.resolvedRefs, e.status = "success" ∨ e.status = "error") ∧
  r.errors.length = (r.resolvedRefs.filter (fun e => e.status == "error")).length ∧
  (r.valid = true ↔ (r.resolvedRefs.filter (fun e => e.status == "error")).length = 0)

/-- A plain inline reference node carrying exactly the four identifying
fields. -/
def plainRefNode (k v d f : String) : Json :=
  .obj [("key", .str k), ("version", .str v), ("domain", .str d), ("flow", .str f)]

/-- An environment differing only in its wall-clock reading. -/
def retimeEnv (t : String) (env : Env) : Env := { env with now := t }

theorem lookup_setAssoc_self {α : Type} (l : List (String × α)) (k : String) (v : α) :
    List.lookup k (setAssoc l k v) = some v := by
  induction l with
  | nil => simp [setAssoc, List.lookup]
  | cons p fs ih =>
      cases p with
      | mk k' v' =>
        by_cases h : k' = k
        · simp [setAssoc, h, List.lookup]
        · have hne : (k == k') = false := beq_eq_false_iff_ne.mpr (Ne.symm h)
          simp [setAssoc, h, List.lookup, ih, hne]

theorem strStartsWith_append (a b : String) : strStartsWith (a ++ b) a = true := by
  simp [strStartsWith, String.data_append]

theorem strAppend_right_cancel {x y s : String} (h : x ++ s = y ++ s) : x = y := by
  have := congrArg String.data h
  simp [String.data_append] at this
  exact String.ext this

/-- C2: the claim's legacy half is as stated: a filename stem `x.1.0.0`
with content key `y ≠ x` makes the consistency check fail with a
`ReferenceConsistencyError` (an error whose message starts with
`Reference consistency validation failed for '`).  The claim's new-format
half is corrected: with filename `x.json` and `content.key = x`, the
check succeeds if and only if `x` matches the key pattern and
`content.version`, when truthy, is itself a valid semantic version — it
does not succeed for every `content.version`. -/
theorem c2_consistency_conventions :
    (∀ (x y ref : String) (p : ParsedRef), x ≠ y →
        p.version = some "1.0.0" → basenameNoJson p.filePath = x ++ ".1.0.0" →
        ∃ e, validateReferenceConsistency ref
            (.obj [("key", .str y), ("version", .str "1.0.0")]) p = .error e ∧
          strStartsWith e "Reference consistency validation failed for '" = true) ∧
    (∀ (x ref : String) (v : Json) (p : ParsedRef), p.version = none →
        basenameNoJson p.filePath = x →
        (validateReferenceConsistency ref (.obj [("key", .str x), ("version", v)]) p = .ok ()
          ↔ (keyPatternStr x = true ∧
              (truthy (some v) = false ∨ semverValidJ (some v) = true)))) := by
  constructor
  · intro x y ref p hxy hv hbase
    have hck : (Json.obj [("key", Json.str y), ("version", Json.str "1.0.0")]).getField "key"
        = some (.str y) := rfl
    have hcv : (Json.obj [("key", Json.str y),
        ("version", Json.str "1.0.0")]).getField "version" = some (.str "1.0.0") := rfl
    have hne : ¬ (x ++ ".1.0.0" =
        jsToStringOpt (some (Json.str y)) ++ "." ++ jsToStringOpt (some (Json.str "1.0.0"))) := by
      simp only [jsToStringOpt, jsToString]
      intro hEq
      apply hxy
      apply @strAppend_right_cancel x y ".1.0.0"
      rw [hEq, String.append_assoc]
      rfl
    cases hres : validateReferenceConsistency ref
        (.obj [("key", .str y), ("version", .str "1.0.0")]) p with
    | ok u =>
        exfalso
        simp only [validateReferenceConsistency, hv, hbase, hck, hcv] at hres
        simp [truthy, hne] at hres
    | error e =>
        refine ⟨e, rfl, ?_⟩
        simp only [validateReferenceConsistency, hv, hbase, hck, hcv] at hres
        simp [truthy, hne] at hres
        rw [← hres]
        simp only [String.append_assoc]
        exact strStartsWith_append _ _
  · intro x ref v p hv hbase
    have hck : (Json.obj [("key", Json.str x), ("version", v)]).getField "key"
        = some (.str x) := rfl
    have hcv : (Json.obj [("key", Json.str x), ("version", v)]).getField "version"
        = some v := rfl
    simp only [validateReferenceConsistency, hv, hbase, hck, hcv]
    simp only [consistencyTail, hck, hcv]
    by_cases ht : truthy (some v)
    · by_cases hs : semverValidJ (some v)
      · by_cases hk : keyPatternStr x <;>
          simp [ht, hs, hk, jsToStringOpt, jsToString]
      · simp [ht, hs, jsToStringOpt, jsToString]
    · by_cases hk : keyPatternStr x <;>
        simp [ht, hk, jsToStringOpt, jsToString]

/-- C2 witness: the legacy half at `x.1.0.0.json` versus key `y`, and the
new-format half at `x.json` with key `x` and the well-formed version
`2.0.0`. -/
theorem c2_witness :
    (∃ e, validateReferenceConsistency "x.1.0.0.json"
        (.obj [("key", .str "y"), ("version", .str "1.0.0")])
        ⟨true, none, "x.1.0.0.json", some "1.0.0", "x.1.0.0"⟩ = .error e ∧
      strStartsWith e "Reference consistency validation failed for '" = true) ∧
    validateReferenceConsistency "x.json"
        (.obj [("key", .str "x"), ("version", .str "2.0.0")])
        ⟨true, none, "x.json", none, "x"⟩ = .ok () := by
  constructor
  · exact c2_consistency_conventions.1 "x" "y" "x.1.0.0.json"
      ⟨true, none, "x.1.0.0.json", some "1.0.0", "x.1.0.0"⟩ (by decide) rfl (by decide)
  · exact (c2_consistency_conventions.2 "x" "x.json" (.str "2.0.0")
      ⟨true, none, "x.json", none, "x"⟩ rfl (by decide)).mpr (by decide)

set_option maxRecDepth 10000 in
/-- C2 counterexample: with filename `x.json` and `content.key = "x"` but
`content.version = "not-a-version"`, resolution does not succeed — the
consistency check rejects the malformed version, contradicting
"resolution succeeds regardless of content.version". -/
theorem c2_counterexample :
    (resolveRef envBadVersion (initState defaultOpts) "x.json" none).2 =
      .error ("Failed to resolve reference 'x.json': Reference consistency validation failed for 'x.json': invalid version format 'not-a-version'. Expected semantic version (e.g., '1.0.0')") := by
  decide


/-- C4: export gating of external references.  `isComponentExported`
holds exactly when the manifest has a truthy `exports` whose `visibility`
is not `private` and the file's basename is listed under one of the six
export categories; and, for a materialized package carrying a manifest,
`resolveExternalRef` fails with the `PackageNotExportedError` message
(`Component … is not exported by …`) when the gate rejects, and otherwise
reads the component file from the materialized package (failing only when
that file is absent). -/
theorem c4_domain_gating :
    (∀ (filePath : String) (cfg : Json),
      isComponentExported filePath cfg = true ↔
        (truthy (cfg.getField "exports") = true ∧
         ((cfg.getField "exports").getD .null).getField "visibility" ≠ some (.str "private") ∧
         ∃ cat ∈ ["functions", "workflows", "tasks", "views", "schemas", "extensions"],
           Json.str (basenameStr filePath) ∈
             asArrList (((cfg.getField "exports").getD .null).getField cat))) ∧
    (∀ (env : Env) (st : RunState) (p : ParsedRef) (name : String) (pkg : Package) (cfg : Json),
      p.packageName = some name →
      List.lookup name env.packages = some pkg →
      List.lookup "vnext.config.json" pkg.files = some cfg →
      (resolveExternalRef env st p).2 =
        (if isComponentExported p.filePath cfg then
          match List.lookup p.filePath pkg.files with
          | some content =>
              .ok (jsSpread content
                [("_resolvedFrom", .str (name ++ ":" ++ p.filePath)),
                 ("_resolvedAt", .str env.now),
                 ("_packageVersion", (cfg.getField "version").getD .null)])
          | none => .error ("Component file not found: " ++ name ++ "/" ++ p.filePath)
        else .error ("Component " ++ p.filePath ++ " is not exported by " ++ name))) := by
  constructor
  · intro fp cfg
    simp only [isComponentExported]
    by_cases h1 : truthy (cfg.getField "exports")
    · by_cases h2 : ((cfg.getField "exports").getD .null).getField "visibility" =
          some (.str "private")
      · simp [h1, h2]
      · have h2b : (((cfg.getField "exports").getD .null).getField "visibility" ==
            some (.str "private")) = false := by simp [h2]
        simp only [h1, h2b, Bool.not_true, Bool.false_eq_true, if_false]
        simp [List.contains, List.mem_append, h2, or_assoc]
    · simp [h1]
  · intro env st p name pkg cfg hname hpkg hcfg
    simp only [resolveExternalRef, ensurePackage, hname, Option.getD_some, hpkg, hcfg]
    by_cases hx : isComponentExported p.filePath cfg
    · simp only [hx, Bool.not_true, if_true, if_false]
      cases hf : List.lookup p.filePath pkg.files <;> simp [hf]
    · simp [hx]

/-- C4 witness: in the package `@org/core`, which exports only
`other-task.json`, the file `Tasks/invalidate-cache.json` is gated off
and external resolution fails with the not-exported error. -/
theorem c4_witness :
    isComponentExported "Tasks/invalidate-cache.json" pkgConfigA = false ∧
    (resolveExternalRef envExternal (initState defaultOpts)
        ⟨false, some "@org/core", "Tasks/invalidate-cache.json", none, "invalidate-cache"⟩).2 =
      .error "Component Tasks/invalidate-cache.json is not exported by @org/core" := by
  constructor
  · decide
  · have h := c4_domain_gating.2 envExternal (initState defaultOpts)
      ⟨false, some "@org/core", "Tasks/invalidate-cache.json", none, "invalidate-cache"⟩
      "@org/core" pkgA pkgConfigA rfl rfl rfl
    rw [h]
    decide

theorem bindDomain_refCache (st : RunState) (dom : Option String) :
    (bindDomain st dom).refCache = st.refCache := by
  unfold bindDomain; split <;> rfl

theorem bindDomain_opts (st : RunState) (dom : Option String) :
    (bindDomain st dom).opts = st.opts := by
  unfold bindDomain; split <;> rfl

theorem bindDomain_truthy (st : RunState) (dom : Option String) :
    truthyStr (bindDomain st dom).currentDomain =
      (truthyStr dom || truthyStr st.currentDomain) := by
  unfold bindDomain
  split
  · next h =>
      simp at h
      simp [h.1]
  · next h =>
      simp at h
      by_cases hd : truthyStr dom = true
      · simp [hd, h hd]
      · simp at hd
        simp [hd]

theorem bindDomain_again (st : RunState) (dom : Option String) :
    bindDomain (bindDomain st dom) dom = bindDomain st dom := by
  unfold bindDomain
  by_cases h : (truthyStr dom && !truthyStr st.currentDomain) = true
  · have h' := h
    simp at h'
    simp [h, h'.1, h'.2]
  · simp [h]

theorem resolveLocalRef_state (env : Env) (st : RunState) (p : ParsedRef)
    (dom : Option String) :
    (resolveLocalRef env st p dom).1.refCache = st.refCache ∧
    (resolveLocalRef env st p dom).1.currentDomain = st.currentDomain ∧
    (resolveLocalRef env st p dom).1.opts = st.opts := by
  simp only [resolveLocalRef]
  split <;> simp

theorem ensurePackage_state (env : Env) (st : RunState) (name : String) :
    (ensurePackage env st name).1.refCache = st.refCache ∧
    (ensurePackage env st name).1.currentDomain = st.currentDomain ∧
    (ensurePackage env st name).1.opts = st.opts := by
  unfold ensurePackage
  split <;> simp

theorem resolveExternalRef_state (env : Env) (st : RunState) (p : ParsedRef) :
    (resolveExternalRef env st p).1.refCache = st.refCache ∧
    (resolveExternalRef env st p).1.currentDomain = st.currentDomain ∧
    (resolveExternalRef env st p).1.opts = st.opts := by
  rcases hE : ensurePackage env st (p.packageName.getD "") with ⟨st1, r⟩
  have h1 := ensurePackage_state env st (p.packageName.getD "")
  rw [hE] at h1
  simp only at h1
  simp only [resolveExternalRef, hE]
  cases r with
  | error e => simpa using h1
  | ok pkg =>
      simp only
      rcases hc : List.lookup "vnext.config.json" pkg.files with _ | cfg
      · simp [hc, h1.1, h1.2.1, h1.2.2]
      · simp only [hc]
        by_cases hx : isComponentExported p.filePath cfg
        · simp only [hx, Bool.not_true, Bool.false_eq_true, if_false]
          rcases hf : List.lookup p.filePath pkg.files with _ | content <;>
            simp [hf, h1.1, h1.2.1, h1.2.2]
        · simp [hx, h1.1, h1.2.1, h1.2.2]

theorem runCompiledValidator_state (env : Env) (st : RunState) (m c : Json) (t : String) :
    (runCompiledValidator env st m c t).1.refCache = st.refCache ∧
    (runCompiledValidator env st m c t).1.currentDomain = st.currentDomain ∧
    (runCompiledValidator env st m c t).1.opts = st.opts := by
  unfold runCompiledValidator
  split <;> simp

theorem validateComponentSchema_state (env : Env) (st : RunState) (c : Json) (fp : String) :
    (validateComponentSchema env st c fp).1.refCache = st.refCache ∧
    (validateComponentSchema env st c fp).1.currentDomain = st.currentDomain ∧
    (validateComponentSchema env st c fp).1.opts = st.opts := by
  simp only [validateComponentSchema]
  split
  · simp
  split
  · simp
  split
  · exact runCompiledValidator_state env st _ _ _
  split
  · simp
  · exact runCompiledValidator_state env _ _ _ _

theorem resolveRef_post (env : Env) (st : RunState) (ref : String) (dom : Option String) :
    (match resolveRef env st ref dom with
     | (st', .ok v) => List.lookup ref st'.refCache = some v ∧
         st'.currentDomain = (bindDomain st dom).currentDomain
     | (st', .error e) => st'.refCache = st.refCache ∧
         st'.currentDomain = (bindDomain st dom).currentDomain ∧
         ∃ inner, e = wrapRefErr ref inner) := by
  rcases hL : List.lookup ref (bindDomain st dom).refCache with _ | v0
  case some =>
    have hres : resolveRef env st ref dom = (bindDomain st dom, .ok v0) := by
      simp [resolveRef, hL]
    rw [hres]
    exact ⟨hL, rfl⟩
  case none =>
  rcases hP : parseRef ref with e0 | p
  case error =>
    have hres : resolveRef env st ref dom =
        (bindDomain st dom, .error (wrapRefErr ref e0)) := by
      simp [resolveRef, hL, hP]
    rw [hres]
    exact ⟨bindDomain_refCache st dom, rfl, e0, rfl⟩
  case ok =>
  rcases hS : (if p.isLocal then resolveLocalRef env (bindDomain st dom) p dom
      else resolveExternalRef env (bindDomain st dom) p) with ⟨st1, r1⟩
  have hst1 : st1.refCache = st.refCache ∧
      st1.currentDomain = (bindDomain st dom).currentDomain := by
    by_cases hl : p.isLocal
    · rw [if_pos hl] at hS
      have h1 := (resolveLocalRef_state env (bindDomain st dom) p dom).1
      have h2 := (resolveLocalRef_state env (bindDomain st dom) p dom).2.1
      rw [hS] at h1 h2
      exact ⟨by simpa [bindDomain_refCache] using h1, h2⟩
    · rw [if_neg hl] at hS
      have h1 := (resolveExternalRef_state env (bindDomain st dom) p).1
      have h2 := (resolveExternalRef_state env (bindDomain st dom) p).2.1
      rw [hS] at h1 h2
      exact ⟨by simpa [bindDomain_refCache] using h1, h2⟩
  cases r1 with
  | error e1 =>
      have hres : resolveRef env st ref dom = (st1, .error (wrapRefErr ref e1)) := by
        simp only [resolveRef, hL, hP, hS]
      rw [hres]
      exact ⟨hst1.1, hst1.2, e1, rfl⟩
  | ok content =>
  rcases hC : (if st1.opts.validateReferenceConsistency then
      ({ st1 with consistencyChecks := st1.consistencyChecks + 1 },
        validateReferenceConsistency ref content p)
      else (st1, Except.ok ())) with ⟨st2, r2⟩
  have hst2 : st2.refCache = st1.refCache ∧ st2.currentDomain = st1.currentDomain := by
    by_cases ho : st1.opts.validateReferenceConsistency
    · rw [if_pos ho] at hC
      cases hC
      exact ⟨rfl, rfl⟩
    · rw [if_neg ho] at hC
      cases hC
      exact ⟨rfl, rfl⟩
  cases r2 with
  | error e2 =>
      have hres : resolveRef env st ref dom = (st2, .error (wrapRefErr ref e2)) := by
        simp only [resolveRef, hL, hP, hS, hC]
      rw [hres]
      exact ⟨hst2.1.trans hst1.1, hst2.2.trans hst1.2, e2, rfl⟩
  | ok u2 =>
  rcases hV : (if st2.opts.validateSchemas then
      validateComponentSchema env { st2 with schemaChecks := st2.schemaChecks + 1 }
        content p.filePath
      else (st2, Except.ok ())) with ⟨st3, r3⟩
  have hst3 : st3.refCache = st2.refCache ∧ st3.currentDomain = st2.currentDomain := by
    by_cases ho : st2.opts.validateSchemas
    · rw [if_pos ho] at hV
      have h1 := (validateComponentSchema_state env
        { st2 with schemaChecks := st2.schemaChecks + 1 } content p.filePath).1
      have h2 := (validateComponentSchema_state env
        { st2 with schemaChecks := st2.schemaChecks + 1 } content p.filePath).2.1
      rw [hV] at h1 h2
      exact ⟨h1, h2⟩
    · rw [if_neg ho] at hV
      cases hV
      exact ⟨rfl, rfl⟩
  cases r3 with
  | error e3 =>
      have hres : resolveRef env st ref dom = (st3, .error (wrapRefErr ref e3)) := by
        simp only [resolveRef, hL, hP, hS, hC, hV]
      rw [hres]
      exact ⟨(hst3.1.trans hst2.1).trans hst1.1, (hst3.2.trans hst2.2).trans hst1.2, e3, rfl⟩
  | ok u3 =>
      have hres : resolveRef env st ref dom =
          ({ st3 with refCache := setAssoc st3.refCache ref content }, .ok content) := by
        simp only [resolveRef, hL, hP, hS, hC, hV]
      rw [hres]
      exact ⟨lookup_setAssoc_self _ _ _, (hst3.2.trans hst2.2).trans hst1.2⟩

/-- C3: resolving the same ref a second time within one run returns the
identical resolved object from the cache and leaves the resolver state —
including the I/O and validation counters and the cache itself —
completely unchanged: no additional file or registry I/O and no
re-validation happens. -/
theorem c3_idempotent_resolution (env : Env) (st : RunState) (ref : String)
    (dom : Option String) (st₁ : RunState) (v : Json)
    (h : resolveRef env st ref dom = (st₁, .ok v)) :
    resolveRef env st₁ ref dom = (st₁, .ok v) := by
  have hpost := resolveRef_post env st ref dom
  rw [h] at hpost
  obtain ⟨hlook, hcd⟩ := hpost
  have hbind : bindDomain st₁ dom = st₁ := by
    unfold bindDomain
    by_cases hd : truthyStr dom = true
    · have ht : truthyStr st₁.currentDomain = true := by
        rw [hcd, bindDomain_truthy]
        simp [hd]
      simp [ht]
    · simp at hd
      simp [hd]
  simp [resolveRef, hbind, hlook]

/-- C8: every failure of `resolveRef` is re-thrown wrapped with the
original ref string (`Failed to resolve reference '<ref>': …`), and the
ref cache is exactly what it was before the failed call — nothing is
partially cached, so a later call for the same ref re-attempts
resolution. -/
theorem c8_failure_semantics (env : Env) (st : RunState) (ref : String)
    (dom : Option String) (st' : RunState) (e : String)
    (h : resolveRef env st ref dom = (st', .error e)) :
    st'.refCache = st.refCache ∧ ∃ inner, e = wrapRefErr ref inner := by
  have hpost := resolveRef_post env st ref dom
  rw [h] at hpost
  exact ⟨hpost.1, hpost.2.2⟩

set_option maxRecDepth 40000 in
/-- C3 witness: the task ref of `envWithTask` resolves, and a second call
from the resulting state returns the identical value and state. -/
theorem c3_witness :
    resolveRef envWithTask
      ((resolveRef envWithTask (initState defaultOpts)
          "Tasks/invalidate-cache.1.0.0.json" none).1)
      "Tasks/invalidate-cache.1.0.0.json" none =
    ((resolveRef envWithTask (initState defaultOpts)
        "Tasks/invalidate-cache.1.0.0.json" none).1,
      .ok (jsSpread taskComponent
        [("_resolvedFrom", .str "local:Tasks/invalidate-cache.1.0.0.json"),
         ("_resolvedAt", .str "2024-01-01T00:00:00.000Z")])) :=
  c3_idempotent_resolution envWithTask (initState defaultOpts)
    "Tasks/invalidate-cache.1.0.0.json" none _ _ (by decide)

set_option maxRecDepth 20000 in
/-- C8 witness: resolving a missing local file fails with the wrapped
message and leaves the fresh resolver's empty cache unchanged. -/
theorem c8_witness :
    (resolveRef emptyEnv (initState defaultOpts) "Tasks/missing.json" none).1.refCache =
        (initState defaultOpts).refCache ∧
    ∃ inner, "Failed to resolve reference 'Tasks/missing.json': Local file not found: Tasks/missing.json" =
      wrapRefErr "Tasks/missing.json" inner :=
  c8_failure_semantics emptyEnv (initState defaultOpts) "Tasks/missing.json" none _ _ (by decide)

theorem validateGeneralTemplate_ok_iff (c : Json) :
    validateGeneralTemplate c = .ok () ↔ specGeneralFieldsOk c = true := by
  by_cases h1 : truthy (c.getField "key")
  case neg => simp [validateGeneralTemplate, specGeneralFieldsOk, List.find?, h1]
  by_cases h2 : truthy (c.getField "version")
  case neg => simp [validateGeneralTemplate, specGeneralFieldsOk, List.find?, h1, h2]
  by_cases h3 : truthy (c.getField "domain")
  case neg => simp [validateGeneralTemplate, specGeneralFieldsOk, List.find?, h1, h2, h3]
  by_cases h4 : truthy (c.getField "flow")
  case neg => simp [validateGeneralTemplate, specGeneralFieldsOk, List.find?, h1, h2, h3, h4]
  by_cases h5 : truthy (c.getField "flowVersion")
  case neg =>
    simp [validateGeneralTemplate, specGeneralFieldsOk, List.find?, h1, h2, h3, h4, h5]
  by_cases h6 : semverValidJ (c.getField "version")
  case neg =>
    simp [validateGeneralTemplate, specGeneralFieldsOk, List.find?, h1, h2, h3, h4, h5, h6]
  by_cases h7 : semverValidJ (c.getField "flowVersion")
  case neg =>
    simp [validateGeneralTemplate, specGeneralFieldsOk, List.find?, h1, h2, h3, h4, h5, h6, h7]
  by_cases h8 : (["sys-tasks", "sys-flows", "sys-functions", "sys-views", "sys-schemas",
      "sys-extensions"].any (fun f => c.getField "flow" == some (.str f))) = true
  case neg =>
    simp only [validateGeneralTemplate, specGeneralFieldsOk, List.find?, h1, h2, h3, h4, h5,
      h6, h7] at h8 ⊢
    simp [h8]
  by_cases h9 : truthy (c.getField "tags") && !isJsonArr ((c.getField "tags").getD .null)
  case pos =>
    simp only [validateGeneralTemplate, specGeneralFieldsOk, List.find?, h1, h2, h3, h4, h5,
      h6, h7] at h8 ⊢
    simp only [h8]
    have h9' := h9
    simp only [Bool.and_eq_true, Bool.not_eq_true'] at h9'
    simp [h9, h9'.1, h9'.2]
  by_cases h10 : truthy (c.getField "attributes") &&
      !typeofObject ((c.getField "attributes").getD .null)
  case pos =>
    simp only [validateGeneralTemplate, specGeneralFieldsOk, List.find?, h1, h2, h3, h4, h5,
      h6, h7] at h8 ⊢
    simp only [h8]
    have h10' := h10
    simp only [Bool.and_eq_true, Bool.not_eq_true'] at h10'
    simp [h9, h10, h10'.1, h10'.2]
  · have h9f : (truthy (c.getField "tags") &&
        !isJsonArr ((c.getField "tags").getD .null)) = false := by
      revert h9
      cases truthy (c.getField "tags") <;>
        cases isJsonArr ((c.getField "tags").getD .null) <;> simp
    have h10f : (truthy (c.getField "attributes") &&
        !typeofObject ((c.getField "attributes").getD .null)) = false := by
      revert h10
      cases truthy (c.getField "attributes") <;>
        cases typeofObject ((c.getField "attributes").getD .null) <;> simp
    have hA : (!truthy (c.getField "tags") ||
        isJsonArr ((c.getField "tags").getD .null)) = true := by
      revert h9f
      cases truthy (c.getField "tags") <;>
        cases isJsonArr ((c.getField "tags").getD .null) <;> simp
    have hB : (!truthy (c.getField "attributes") ||
        typeofObject ((c.getField "attributes").getD .null)) = true := by
      revert h10f
      cases truthy (c.getField "attributes") <;>
        cases typeofObject ((c.getField "attributes").getD .null) <;> simp
    simp only [validateGeneralTemplate, specGeneralFieldsOk, List.find?, h1, h2, h3, h4, h5,
      h6, h7] at h8 ⊢
    simp only [h8]
    simp [h9f, h10f, hA, hB]

theorem validateJsonSchema_ok_iff (s : Json) :
    validateJsonSchema s = .ok () ↔ specJsonSchemaOk s = true := by
  by_cases h0 : (!typeofObject s || s == .null) = true
  case pos =>
    have : ¬ (typeofObject s = true ∧ s ≠ .null) := by
      revert h0
      cases ht : typeofObject s <;> simp_all
    simp only [validateJsonSchema, specJsonSchemaOk, h0]
    simp_all
  have h0' : typeofObject s = true ∧ ¬ s = Json.null := by
    revert h0
    cases typeofObject s <;> simp_all
  by_cases h1 : truthy (s.getField "$schema")
  case neg => simp [validateJsonSchema, specJsonSchemaOk, List.find?, h0, h1]
  by_cases h2 : truthy (s.getField "$id")
  case neg => simp [validateJsonSchema, specJsonSchemaOk, List.find?, h0, h1, h2]
  by_cases h3 : truthy (s.getField "title")
  case neg => simp [validateJsonSchema, specJsonSchemaOk, List.find?, h0, h1, h2, h3]
  by_cases h4 : truthy (s.getField "description")
  case neg => simp [validateJsonSchema, specJsonSchemaOk, List.find?, h0, h1, h2, h3, h4]
  by_cases h5 : truthy (s.getField "type")
  case neg => simp [validateJsonSchema, specJsonSchemaOk, List.find?, h0, h1, h2, h3, h4, h5]
  rcases hs : s.getField "$schema" with _ | js
  · simp [truthy, hs] at h1
  cases js with
  | str u =>
      rw [hs] at h1
      by_cases hu : strStartsWith u "https://json-schema.org/"
      case neg =>
        simp [validateJsonSchema, specJsonSchemaOk, List.find?, h0, h1, h2, h3, h4, h5, hs, hu]
      rcases hi : s.getField "$id" with _ | ji
      · simp [truthy, hi] at h2
      cases ji with
      | str i =>
          rw [hi] at h2
          by_cases hiu : strStartsWith i "https://"
          case neg =>
            simp [validateJsonSchema, specJsonSchemaOk, List.find?, h0, h1, h2, h3, h4, h5,
              hs, hu, hi, hiu]
          have hPf : ∀ b : Bool,
              (truthy (s.getField "properties") &&
                !typeofObject ((s.getField "properties").getD .null)) = b → True := fun _ _ => trivial
          by_cases hp : (truthy (s.getField "properties") &&
              !typeofObject ((s.getField "properties").getD .null)) = true
          case pos =>
            have : (!truthy (s.getField "properties") ||
                typeofObject ((s.getField "properties").getD .null)) = false := by
              revert hp
              cases truthy (s.getField "properties") <;>
                cases typeofObject ((s.getField "properties").getD .null) <;> simp
            simp [validateJsonSchema, specJsonSchemaOk, List.find?, h0, h1, h2, h3, h4, h5,
              hs, hu, hi, hiu, hp, this]
          by_cases hr : (truthy (s.getField "required") &&
              !isJsonArr ((s.getField "required").getD .null)) = true
          case pos =>
            have : (!truthy (s.getField "required") ||
                isJsonArr ((s.getField "required").getD .null)) = false := by
              revert hr
              cases truthy (s.getField "required") <;>
                cases isJsonArr ((s.getField "required").getD .null) <;> simp
            simp [validateJsonSchema, specJsonSchemaOk, List.find?, h0, h1, h2, h3, h4, h5,
              hs, hu, hi, hiu, hp, hr, this]
          · have hA : (!truthy (s.getField "properties") ||
                typeofObject ((s.getField "properties").getD .null)) = true := by
              revert hp
              cases truthy (s.getField "properties") <;>
                cases typeofObject ((s.getField "properties").getD .null) <;> simp
            have hB : (!truthy (s.getField "required") ||
                isJsonArr ((s.getField "required").getD .null)) = true := by
              revert hr
              cases truthy (s.getField "required") <;>
                cases isJsonArr ((s.getField "required").getD .null) <;> simp
            simp [validateJsonSchema, specJsonSchemaOk, List.find?, h0, h0', h1, h2, h3, h4, h5,
              hs, hu, hi, hiu, hp, hr, hA, hB]
      | null => rw [hi] at h2; simp [truthy] at h2
      | bool b =>
          rw [hi] at h2
          simp [validateJsonSchema, specJsonSchemaOk, List.find?, h0, h1, h2, h3, h4, h5, hs, hu, hi]
      | num n =>
          rw [hi] at h2
          simp [validateJsonSchema, specJsonSchemaOk, List.find?, h0, h1, h2, h3, h4, h5, hs, hu, hi]
      | arr xs =>
          rw [hi] at h2
          simp [validateJsonSchema, specJsonSchemaOk, List.find?, h0, h1, h2, h3, h4, h5, hs, hu, hi]
      | obj gs =>
          rw [hi] at h2
          simp [validateJsonSchema, specJsonSchemaOk, List.find?, h0, h1, h2, h3, h4, h5, hs, hu, hi]
  | null => rw [hs] at h1; simp [truthy] at h1
  | bool b =>
      rw [hs] at h1
      simp [validateJsonSchema, specJsonSchemaOk, List.find?, h0, h1, h2, h3, h4, h5, hs]
  | num n =>
      rw [hs] at h1
      simp [validateJsonSchema, specJsonSchemaOk, List.find?, h0, h1, h2, h3, h4, h5, hs]
  | arr xs =>
      rw [hs] at h1
      simp [validateJsonSchema, specJsonSchemaOk, List.find?, h0, h1, h2, h3, h4, h5, hs]
  | obj gs =>
      rw [hs] at h1
      simp [validateJsonSchema, specJsonSchemaOk, List.find?, h0, h1, h2, h3, h4, h5, hs]

theorem validateSysSchemaComponent_ok_iff (c : Json) (fp : String) :
    (validateSysSchemaComponent c fp).1 = .ok () ↔ specSysSchemaOk c = true := by
  rcases hg : validateGeneralTemplate c with e | u
  · have hiff := validateGeneralTemplate_ok_iff c
    rw [hg] at hiff
    have hgf : specGeneralFieldsOk c = false := by
      rcases Bool.eq_false_or_eq_true (specGeneralFieldsOk c) with h | h
      · exact absurd (hiff.mpr h) (by simp)
      · exact h
    simp [validateSysSchemaComponent, specSysSchemaOk, hg, hgf]
  · cases u
    have hgs : specGeneralFieldsOk c = true := (validateGeneralTemplate_ok_iff c).mp hg
    by_cases ha : truthy (c.getField "attributes")
    case neg =>
      simp [validateSysSchemaComponent, specSysSchemaOk, hg, hgs, ha]
    by_cases ht : truthy (((c.getField "attributes").getD .null).getField "type")
    · by_cases he : (["workflow", "task", "function", "view", "schema", "extension"].any
          (fun t => ((c.getField "attributes").getD .null).getField "type" ==
            some (.str t))) = true
      · by_cases hsc : truthy (((c.getField "attributes").getD .null).getField "schema")
        · rcases hv : validateJsonSchema
              ((((c.getField "attributes").getD .null).getField "schema").getD .null)
              with e2 | u2
          · have hiff2 := validateJsonSchema_ok_iff
              ((((c.getField "attributes").getD .null).getField "schema").getD .null)
            rw [hv] at hiff2
            have hjf : specJsonSchemaOk
                ((((c.getField "attributes").getD .null).getField "schema").getD .null)
                = false := by
              rcases Bool.eq_false_or_eq_true (specJsonSchemaOk
                ((((c.getField "attributes").getD .null).getField "schema").getD .null))
                with h | h
              · exact absurd (hiff2.mpr h) (by simp)
              · exact h
            simp [validateSysSchemaComponent, specSysSchemaOk, hg, hgs, ha, ht, he, hsc, hv, hjf]
          · cases u2
            have hjt := (validateJsonSchema_ok_iff _).mp hv
            simp [validateSysSchemaComponent, specSysSchemaOk, hg, hgs, ha, ht, he, hsc, hv, hjt]
        · simp [validateSysSchemaComponent, specSysSchemaOk, hg, hgs, ha, ht, he, hsc]
      · simp [validateSysSchemaComponent, specSysSchemaOk, hg, hgs, ha, ht, he]
    · by_cases hsc : truthy (((c.getField "attributes").getD .null).getField "schema")
      · rcases hv : validateJsonSchema
            ((((c.getField "attributes").getD .null).getField "schema").getD .null)
            with e2 | u2
        · have hiff2 := validateJsonSchema_ok_iff
            ((((c.getField "attributes").getD .null).getField "schema").getD .null)
          rw [hv] at hiff2
          have hjf : specJsonSchemaOk
              ((((c.getField "attributes").getD .null).getField "schema").getD .null)
              = false := by
            rcases Bool.eq_false_or_eq_true (specJsonSchemaOk
              ((((c.getField "attributes").getD .null).getField "schema").getD .null))
              with h | h
            · exact absurd (hiff2.mpr h) (by simp)
            · exact h
          simp [validateSysSchemaComponent, specSysSchemaOk, hg, hgs, ha, ht, hsc, hv, hjf]
        · cases u2
          have hjt := (validateJsonSchema_ok_iff _).mp hv
          simp [validateSysSchemaComponent, specSysSchemaOk, hg, hgs, ha, ht, hsc, hv, hjt]
      · simp [validateSysSchemaComponent, specSysSchemaOk, hg, hgs, ha, ht, hsc]

/-- C6: for `sys-schemas` components the generic per-type schema is not
applied — `validateComponentSchema` routes them to
`validateSysSchemaComponent` without touching the schema files, the AJV
validator or the compiled-validator cache — and that validator accepts
exactly when the five generic fields are present with valid
semver/flow-enum values (and well-shaped `tags`/`attributes`),
`attributes.type`, when present and truthy, is one of the six kind
names, and `attributes.schema`, when present and truthy, passes the
structural JSON Schema check.  Corrected versus the claim: a missing
`attributes.schema` (and a missing `attributes.type`) is tolerated with
a warning, not a failure. -/
theorem c6_sys_schemas_validation :
    (∀ (c : Json) (fp : String),
      (validateSysSchemaComponent c fp).1 = .ok () ↔ specSysSchemaOk c = true) ∧
    (∀ (env : Env) (opts : ResolverOpts) (S : Json) (fp : String),
      validateComponentSchema env (initState opts) (sysSchemasComponent S) fp =
        ({ initState opts with
            warnings := (validateSysSchemaComponent (sysSchemasComponent S) fp).2 },
         (validateSysSchemaComponent (sysSchemasComponent S) fp).1)) := by
  constructor
  · exact validateSysSchemaComponent_ok_iff
  · intro env opts S fp
    have hclean : cleanMetadataFields (sysSchemasComponent S) = sysSchemasComponent S := rfl
    have hflow : ((sysSchemasComponent S).getField "flow" ==
        some (Json.str "sys-schemas")) = true := rfl
    simp only [validateComponentSchema, hclean, hflow]
    simp [initState, truthyStr]

/-- C6 counterexample: a `sys-schemas` component with no
`attributes.schema` at all passes `validateSysSchemaComponent` with only
a warning, although the claim requires the validation to fail whenever
`attributes.schema` is not an object carrying the required fields. -/
theorem c6_counterexample :
    (validateSysSchemaComponent sysSchemaNoSchema "Schemas/order-schema.json").1 = .ok () ∧
    ((sysSchemaNoSchema.getField "attributes").getD .null).getField "schema" = none ∧
    (validateSysSchemaComponent sysSchemaNoSchema "Schemas/order-schema.json").2 =
      ["sys-schemas component missing attributes.schema: Schemas/order-schema.json"] := by
  refine ⟨?_, ?_, ?_⟩ <;> decide

theorem detectComponentTypeFromFlow_ne (j : Json) : detectComponentTypeFromFlow j ≠ "" := by
  simp only [detectComponentTypeFromFlow]
  split
  · decide
  split
  · decide
  split
  · decide
  split
  · decide
  split
  · decide
  split
  · decide
  · decide

theorem walkRec_str (env : Env) (x : String) (dom : Option String) (ctx : WalkCtx)
    (acc : RunState × ValidationResults) :
    validateReferencesRecursive env (.str x) dom ctx acc = acc := by
  simp [validateReferencesRecursive]

/-- C7: for plain-shaped reference nodes the walker runs
`validatePlainReference`, which (given the detection-guaranteed truthy
fields) succeeds exactly when the version is valid semver and the key
matches the key pattern; and on a well-formed plain node whose domain
differs from the bound domain, the walker only appends a domain-mismatch
warning and records the node with status `success` — `errors` and the
aggregate `valid` flag are untouched. -/
theorem c7_plain_reference_warning :
    (∀ (env : Env) (st : RunState) (obj : Json) (dom : Option String),
      truthy (obj.getField "key") = true → truthy (obj.getField "version") = true →
      truthy (obj.getField "domain") = true →
      (exceptOk (validatePlainReference env st obj dom).2 = true ↔
        (semverValidJ (obj.getField "version") = true ∧
         keyPatternStr (jsToStringOpt (obj.getField "key")) = true))) ∧
    (∀ (env : Env) (st : RunState) (res : ValidationResults) (ctx : WalkCtx)
      (k v d f cd : String),
      ctx.isInSchemaDefinition = false →
      keyPatternStr k = true → semverValid v = true →
      d ≠ "" → f ≠ "" → cd ≠ "" → d ≠ cd →
      validateReferencesRecursive env (plainRefNode k v d f) (some cd) ctx (st, res) =
        ({ st with warnings := st.warnings ++
            ["Domain mismatch in plain reference: expected '" ++ cd ++ "', found '" ++ d ++ "'"] },
         { res with resolvedRefs := res.resolvedRefs ++
            [{ ref := d ++ "/" ++ f ++ "/" ++ k ++ "." ++ v,
               resolved := some (.str "plain-reference"),
               status := "success",
               details := some ⟨some (.str k), some (.str v), some (.str d), some (.str f),
                 detectComponentTypeFromFlow (.str f), "plain"⟩,
               error := none, errFormat := none }] })) := by
  constructor
  · intro env st obj dom h1 h2 h3
    by_cases hs : semverValidJ (obj.getField "version")
    · by_cases hk : keyPatternStr (jsToStringOpt (obj.getField "key")) <;>
        simp [validatePlainReference, exceptOk, h1, h2, h3, hs, hk]
    · simp [validatePlainReference, exceptOk, h1, h2, h3, hs]
  · intro env st res ctx k v d f cd hctx hk hv hd hf hcd hdc
    have hk0 : k ≠ "" := by
      intro h
      rw [h] at hk
      revert hk
      decide
    have hv0 : v ≠ "" := by
      intro h
      rw [h] at hv
      revert hv
      decide
    have hdet : detectReferenceFormat (plainRefNode k v d f) =
        some ⟨"plain", d ++ "/" ++ f ++ "/" ++ k ++ "." ++ v,
          detectComponentTypeFromFlow (.str f)⟩ := by
      simp [detectReferenceFormat, plainRefCheck, plainRefNode, Json.getField, List.find?,
        truthy, hk0, hv0, hd, hf, jsToStringOpt, jsToString]
    simp only [validateReferencesRecursive, plainRefNode] at hdet ⊢
    simp only [hctx, Bool.false_eq_true, if_false, hdet]
    simp only [processDetectedRef, validatePlainReference]
    simp [truthy, truthyStr, hk0, hv0, hd, hf, hcd, hdc, hk, hv, semverValidJ,
      jsToStringOpt, jsToString, Json.getField, List.find?, jsSpread,
      jsSpreadBase, setAssoc, jsOr, detectComponentTypeFromFlow_ne,
      validateReferencesRecursiveFields, walkRec_str, exceptOk]

set_option maxRecDepth 10000 in
/-- C7 witness: a plain node with domain `billing` under bound domain
`core` validates successfully, and the walker records it as a success
with only the domain-mismatch warning emitted. -/
theorem c7_witness :
    exceptOk (validatePlainReference emptyEnv (initState defaultOpts)
        (plainRefNode "invalidate-cache" "1.0.0" "billing" "sys-tasks") (some "core")).2 = true ∧
    validateReferencesRecursive emptyEnv
        (plainRefNode "invalidate-cache" "1.0.0" "billing" "sys-tasks") (some "core")
        ⟨false, false⟩ (initState defaultOpts, ⟨true, [], [], ⟨0, 0, 0, 0⟩⟩) =
      ({ initState defaultOpts with warnings :=
          ["Domain mismatch in plain reference: expected 'core', found 'billing'"] },
       { valid := true, errors := [],
         resolvedRefs := [⟨"billing/sys-tasks/invalidate-cache.1.0.0",
           some (.str "plain-reference"), "success",
           some ⟨some (.str "invalidate-cache"), some (.str "1.0.0"), some (.str "billing"),
             some (.str "sys-tasks"), "task", "plain"⟩, none, none⟩],
         validationDetails := ⟨0, 0, 0, 0⟩ }) := by
  constructor
  · exact (c7_plain_reference_warning.1 emptyEnv (initState defaultOpts)
      (plainRefNode "invalidate-cache" "1.0.0" "billing" "sys-tasks") (some "core")
      (by decide) (by decide) (by decide)).mpr (by decide)
  · have h := c7_plain_reference_warning.2 emptyEnv (initState defaultOpts)
      ⟨true, [], [], ⟨0, 0, 0, 0⟩⟩ ⟨false, false⟩
      "invalidate-cache" "1.0.0" "billing" "sys-tasks" "core"
      rfl (by decide) (by decide) (by decide) (by decide) (by decide) (by decide)
    rw [h]
    decide


theorem processDetectedRef_inv (env : Env) (info : RefFormat) (node : Json)
    (dom : Option String) (acc : RunState × ValidationResults)
    (h : resultsInvariant acc.2) :
    resultsInvariant (processDetectedRef env info node dom acc).2 := by
  obtain ⟨h1, h2, h3⟩ := h
  rcases hstep : (if info.format == "plain" then validatePlainReference env acc.1 node dom
      else resolveRef env acc.1 info.identifier dom) with ⟨st', r⟩
  simp only [processDetectedRef, hstep]
  cases r with
  | ok resolved =>
      refine ⟨?_, ?_, ?_⟩
      · intro e he
        simp only [List.mem_append, List.mem_singleton] at he
        rcases he with he | he
        · exact h1 e he
        · left
          rw [he]
      · simp [List.filter_append, h2]
      · simp [List.filter_append, h3]
  | error e =>
      refine ⟨?_, ?_, ?_⟩
      · intro x hx
        simp only [List.mem_append, List.mem_singleton] at hx
        rcases hx with hx | hx
        · exact h1 x hx
        · right
          rw [hx]
      · simp [List.filter_append, h2]
      · simp [List.filter_append]

mutual
theorem walkRec_inv : ∀ (env : Env) (j : Json) (dom : Option String) (ctx : WalkCtx)
    (acc : RunState × ValidationResults), resultsInvariant acc.2 →
    resultsInvariant (validateReferencesRecursive env j dom ctx acc).2
  | env, .null, dom, ctx, acc, h => by simpa [validateReferencesRecursive] using h
  | env, .bool b, dom, ctx, acc, h => by simpa [validateReferencesRecursive] using h
  | env, .num n, dom, ctx, acc, h => by simpa [validateReferencesRecursive] using h
  | env, .str s, dom, ctx, acc, h => by simpa [validateReferencesRecursive] using h
  | env, .arr xs, dom, ctx, acc, h => by
      simpa [validateReferencesRecursive] using walkList_inv env xs dom ctx acc h
  | env, .obj fs, dom, ctx, acc, h => by
      simp only [validateReferencesRecursive]
      by_cases hc : ctx.isInSchemaDefinition = true
      · simpa [hc] using h
      · simp only [hc, Bool.false_eq_true, if_false]
        have hacc1 : resultsInvariant
            (match detectReferenceFormat (.obj fs) with
             | some info => processDetectedRef env info (.obj fs) dom acc
             | none => acc).2 := by
          cases hd : detectReferenceFormat (.obj fs) with
          | none => simpa using h
          | some info => exact processDetectedRef_inv env info _ dom acc h
        exact walkFields_inv env fs dom ctx _ hacc1
theorem walkList_inv : ∀ (env : Env) (xs : List Json) (dom : Option String) (ctx : WalkCtx)
    (acc : RunState × ValidationResults), resultsInvariant acc.2 →
    resultsInvariant (validateReferencesRecursiveList env xs dom ctx acc).2
  | env, [], dom, ctx, acc, h => by simpa [validateReferencesRecursiveList] using h
  | env, x :: xs, dom, ctx, acc, h => by
      simp only [validateReferencesRecursiveList]
      exact walkList_inv env xs dom ctx _ (walkRec_inv env x dom ctx acc h)
theorem walkFields_inv : ∀ (env : Env) (fs : List (String × Json)) (dom : Option String)
    (ctx : WalkCtx) (acc : RunState × ValidationResults), resultsInvariant acc.2 →
    resultsInvariant (validateReferencesRecursiveFields env fs dom ctx acc).2
  | env, [], dom, ctx, acc, h => by simpa [validateReferencesRecursiveFields] using h
  | env, (k, v) :: fs, dom, ctx, acc, h => by
      simp only [validateReferencesRecursiveFields]
      by_cases hk : (k == "ref") = true
      · simp only [hk, if_true]
        exact walkFields_inv env fs dom ctx acc h
      · simp only [hk, Bool.false_eq_true, if_false]
        exact walkFields_inv env fs dom ctx _ (walkRec_inv env v dom _ acc h)
end

theorem statuses_partition (l : List RefEntry)
    (h : ∀ e ∈ l, e.status = "success" ∨ e.status = "error") :
    (l.filter (fun e => e.status == "success")).length +
      (l.filter (fun e => e.status == "error")).length = l.length ∧
    (l.filter (fun e => e.status == "skipped")).length = 0 := by
  induction l with
  | nil => simp
  | cons e t ih =>
      have he := h e (List.mem_cons_self e t)
      have ht := ih (fun x hx => h x (List.mem_cons_of_mem _ hx))
      rcases he with hs | hs <;>
        simp [List.filter_cons, hs, ht.1, ht.2] <;> omega

/-- C10: the aggregate bookkeeping of `validateAllReferences` —
`total = successful + failed + skipped`, `skipped` is always `0`,
`errors.length = failed`, and `valid` holds exactly when `failed = 0`. -/
theorem c10_validation_details_invariants :
    ∀ (env : Env) (st : RunState) (j : Json) (dom : Option String),
      ((validateAllReferences env st j dom).2.validationDetails.total =
        (validateAllReferences env st j dom).2.validationDetails.successful +
        (validateAllReferences env st j dom).2.validationDetails.failed +
        (validateAllReferences env st j dom).2.validationDetails.skipped) ∧
      (validateAllReferences env st j dom).2.validationDetails.skipped = 0 ∧
      (validateAllReferences env st j dom).2.errors.length =
        (validateAllReferences env st j dom).2.validationDetails.failed ∧
      ((validateAllReferences env st j dom).2.valid = true ↔
        (validateAllReferences env st j dom).2.validationDetails.failed = 0) := by
  intro env st j dom
  have hinv : resultsInvariant
      (validateReferencesRecursive env j dom ⟨false, false⟩
        (bindDomain st dom,
         { valid := true, errors := [], resolvedRefs := [],
           validationDetails := ⟨0, 0, 0, 0⟩ })).2 := by
    apply walkRec_inv
    refine ⟨?_, ?_, ?_⟩ <;> simp
  obtain ⟨h1, h2, h3⟩ := hinv
  have hpart := statuses_partition _ h1
  simp only [validateAllReferences]
  refine ⟨?_, ?_, ?_, ?_⟩
  · simp [hpart.1, hpart.2]
  · simp [hpart.2]
  · simp [h2]
  · simp [h3]

mutual
theorem walkRec_suppressed : ∀ (env : Env) (j : Json) (dom : Option String) (ctx : WalkCtx)
    (acc : RunState × ValidationResults), ctx.isInSchemaDefinition = true →
    validateReferencesRecursive env j dom ctx acc = acc
  | env, .null, dom, ctx, acc, h => by simp [validateReferencesRecursive]
  | env, .bool b, dom, ctx, acc, h => by simp [validateReferencesRecursive]
  | env, .num n, dom, ctx, acc, h => by simp [validateReferencesRecursive]
  | env, .str s, dom, ctx, acc, h => by simp [validateReferencesRecursive]
  | env, .arr xs, dom, ctx, acc, h => by
      simpa [validateReferencesRecursive] using walkList_suppressed env xs dom ctx acc h
  | env, .obj fs, dom, ctx, acc, h => by simp [validateReferencesRecursive, h]
theorem walkList_suppressed : ∀ (env : Env) (xs : List Json) (dom : Option String)
    (ctx : WalkCtx) (acc : RunState × ValidationResults), ctx.isInSchemaDefinition = true →
    validateReferencesRecursiveList env xs dom ctx acc = acc
  | env, [], dom, ctx, acc, h => by simp [validateReferencesRecursiveList]
  | env, x :: xs, dom, ctx, acc, h => by
      simp only [validateReferencesRecursiveList]
      rw [walkRec_suppressed env x dom ctx acc h]
      exact walkList_suppressed env xs dom ctx acc h
end

/-- C5: once the walker enters a suppressed context
(`isInSchemaDefinition`), the entire subtree contributes nothing — no
classification, no `resolvedRefs` entry, no error, no state change — and
consequently the full validation result of a `sys-schemas` component is
independent of whatever sits below `attributes.schema`. -/
theorem c5_schema_subtree_suppression :
    (∀ (env : Env) (j : Json) (dom : Option String) (ctx : WalkCtx)
      (acc : RunState × ValidationResults), ctx.isInSchemaDefinition = true →
      validateReferencesRecursive env j dom ctx acc = acc) ∧
    (∀ (env : Env) (st : RunState) (dom : Option String) (S S' : Json),
      validateAllReferences env st (sysSchemasComponent S) dom =
        validateAllReferences env st (sysSchemasComponent S') dom) := by
  refine ⟨walkRec_suppressed, ?_⟩
  intro env st dom S S'
  have key : ∀ (T : Json) (acc : RunState × ValidationResults),
      validateReferencesRecursive env (sysSchemasComponent T) dom ⟨false, false⟩ acc =
        processDetectedRef env ⟨"plain", "core/sys-schemas/order-schema.1.0.0", "schema"⟩
          (sysSchemasComponent T) dom acc := by
    intro T acc
    have hdet : detectReferenceFormat (Json.obj [("key", Json.str "order-schema"),
        ("version", Json.str "1.0.0"), ("domain", Json.str "core"),
        ("flow", Json.str "sys-schemas"), ("flowVersion", Json.str "1.0.0"),
        ("attributes", Json.obj [("type", Json.str "task"), ("schema", T)])]) =
        some ⟨"plain", "core/sys-schemas/order-schema.1.0.0", "schema"⟩ := rfl
    have hdet2 : detectReferenceFormat (Json.obj [("type", Json.str "task"),
        ("schema", T)]) = none := rfl
    simp only [sysSchemasComponent, validateReferencesRecursive,
      validateReferencesRecursiveFields, hdet, hdet2]
    simp [walkRec_str, walkRec_suppressed]
  have hpro : ∀ (T : Json) (acc : RunState × ValidationResults),
      processDetectedRef env ⟨"plain", "core/sys-schemas/order-schema.1.0.0", "schema"⟩
        (sysSchemasComponent T) dom acc =
      processDetectedRef env ⟨"plain", "core/sys-schemas/order-schema.1.0.0", "schema"⟩
        (sysSchemasComponent Json.null) dom acc := by
    intro T acc
    have hsem : semverValid "1.0.0" = true := by decide
    have hkey : keyPatternStr "order-schema" = true := by decide
    simp [processDetectedRef, validatePlainReference, sysSchemasComponent, Json.getField,
      List.find?, truthy, semverValidJ, jsToStringOpt, jsToString, hsem, hkey, jsSpread,
      jsSpreadBase, setAssoc, jsOr]
  simp only [validateAllReferences]
  rw [key S _, key S' _, hpro S _, hpro S' _]

/-- C5 witness: inside a suppressed context even a ref-shaped object with
a dangling reference contributes nothing to state or results. -/
theorem c5_witness :
    validateReferencesRecursive emptyEnv (.obj [("ref", .str "Tasks/missing.json")])
      (some "core") ⟨true, false⟩
      (initState defaultOpts, ⟨true, [], [], ⟨0, 0, 0, 0⟩⟩) =
    (initState defaultOpts, ⟨true, [], [], ⟨0, 0, 0, 0⟩⟩) :=
  c5_schema_subtree_suppression.1 emptyEnv (.obj [("ref", .str "Tasks/missing.json")])
    (some "core") ⟨true, false⟩ (initState defaultOpts, ⟨true, [], [], ⟨0, 0, 0, 0⟩⟩) rfl

theorem payloadShaped_payloadOf (v : Json) : payloadShaped (payloadOf v) = true := by
  simp only [payloadShaped, payloadOf, List.all_eq_true, List.mem_filterMap]
  rintro p ⟨x, hx, hmap⟩
  rcases Option.map_eq_some'.mp hmap with ⟨w, hw, rfl⟩
  simp only [List.mem_cons, List.mem_singleton] at hx
  rcases hx with rfl | rfl | rfl | rfl | hx
  · simp
  · simp
  · simp
  · simp
  · simp at hx

mutual
theorem rtp_noRef : ∀ (env : Env) (st : RunState) (dom : Option String) (j : Json),
    noRefShaped j = true → resolveReferencesToPayload env st dom j = (st, j)
  | env, st, dom, .null, h => by simp [resolveReferencesToPayload]
  | env, st, dom, .bool b, h => by simp [resolveReferencesToPayload]
  | env, st, dom, .num n, h => by simp [resolveReferencesToPayload]
  | env, st, dom, .str s, h => by simp [resolveReferencesToPayload]
  | env, st, dom, .arr xs, h => by
      have hl := rtpList_noRef env st dom xs (by simpa [noRefShaped] using h)
      simp [resolveReferencesToPayload, hl]
  | env, st, dom, .obj fs, h => by
      simp only [noRefShaped, Bool.and_eq_true, Bool.not_eq_true'] at h
      have hf := rtpFields_noRef env st dom fs h.2
      simp [resolveReferencesToPayload, h.1, hf]
theorem rtpList_noRef : ∀ (env : Env) (st : RunState) (dom : Option String) (xs : List Json),
    noRefShapedList xs = true → rtpList env st dom xs = (st, xs)
  | env, st, dom, [], h => by simp [rtpList]
  | env, st, dom, x :: xs, h => by
      simp only [noRefShapedList, Bool.and_eq_true] at h
      have h1 := rtp_noRef env st dom x h.1
      have h2 := rtpList_noRef env st dom xs h.2
      simp [rtpList, h1, h2]
theorem rtpFields_noRef : ∀ (env : Env) (st : RunState) (dom : Option String)
    (fs : List (String × Json)), noRefShapedFields fs = true →
    rtpFields env st dom fs = (st, fs)
  | env, st, dom, [], h => by simp [rtpFields]
  | env, st, dom, (k, v) :: fs, h => by
      simp only [noRefShapedFields, Bool.and_eq_true] at h
      have h1 := rtp_noRef env st dom v h.1
      have h2 := rtpFields_noRef env st dom fs h.2
      simp [rtpFields, h1, h2]
end

mutual
theorem rtp_replacedOk : ∀ (env : Env) (st : RunState) (dom : Option String) (j : Json),
    rtpAllOk env st dom j = true →
    replacedOk j (resolveReferencesToPayload env st dom j).2 = true
  | env, st, dom, .null, h => by simp [resolveReferencesToPayload, replacedOk]
  | env, st, dom, .bool b, h => by simp [resolveReferencesToPayload, replacedOk]
  | env, st, dom, .num n, h => by simp [resolveReferencesToPayload, replacedOk]
  | env, st, dom, .str s, h => by simp [resolveReferencesToPayload, replacedOk]
  | env, st, dom, .arr xs, h => by
      have hl := rtpList_replacedOk env st dom xs (by simpa [rtpAllOk] using h)
      simp [resolveReferencesToPayload, replacedOk]
      exact hl
  | env, st, dom, .obj fs, h => by
      by_cases hr : refShapedFields fs
      · simp only [rtpAllOk, hr, if_true] at h
        rcases hres : resolveRef env st (refStringOf fs) dom with ⟨st', r⟩
        cases r with
        | error e => rw [hres] at h; simp [exceptOk] at h
        | ok v =>
            simp only [resolveReferencesToPayload, hr, if_true, hres]
            simp [replacedOk, hr, payloadShaped_payloadOf]
      · simp only [rtpAllOk, hr, Bool.false_eq_true, if_false] at h
        have hf := rtpFields_replacedOk env st dom fs h
        simp [resolveReferencesToPayload, replacedOk, hr]
        exact hf
theorem rtpList_replacedOk : ∀ (env : Env) (st : RunState) (dom : Option String)
    (xs : List Json), rtpAllOkList env st dom xs = true →
    replacedOkList xs (rtpList env st dom xs).2 = true
  | env, st, dom, [], h => by simp [rtpList, replacedOkList]
  | env, st, dom, x :: xs, h => by
      simp only [rtpAllOkList, Bool.and_eq_true] at h
      have h1 := rtp_replacedOk env st dom x h.1
      have h2 := rtpList_replacedOk env (resolveReferencesToPayload env st dom x).1 dom xs h.2
      simp [rtpList, replacedOkList, h1, h2]
theorem rtpFields_replacedOk : ∀ (env : Env) (st : RunState) (dom : Option String)
    (fs : List (String × Json)), rtpAllOkFields env st dom fs = true →
    replacedOkFields fs (rtpFields env st dom fs).2 = true
  | env, st, dom, [], h => by simp [rtpFields, replacedOkFields]
  | env, st, dom, (k, v) :: fs, h => by
      simp only [rtpAllOkFields, Bool.and_eq_true] at h
      have h1 := rtp_replacedOk env st dom v h.1
      have h2 := rtpFields_replacedOk env (resolveReferencesToPayload env st dom v).1 dom fs h.2
      simp [rtpFields, replacedOkFields, h1, h2]
end

/-- C1: a reference build replaces every ref-shaped node with the minimal
{key, version, domain, flow} payload and leaves plain documents untouched —
PROVIDED every ref-shaped node in the document actually resolves (`rtpAllOk`).
The claim as stated ("For every domain tree whose components all validate ...
no ref keys survive") is refuted by `c1_counterexample`: a document can pass
validation (refs inside `attributes.schema` are suppressed by the validation
walker) while the build-time rewriter, which does NOT suppress schema
subtrees, fails to resolve those refs and leaves the `ref` key in place. -/
theorem c1_reference_build_payloads :
    (∀ (env : Env) (st : RunState) (dom : Option String) (j : Json),
      rtpAllOk env st dom j = true →
      replacedOk j (resolveReferencesToPayload env st dom j).2 = true) ∧
    (∀ (env : Env) (st : RunState) (dom : Option String) (j : Json),
      noRefShaped j = true → resolveReferencesToPayload env st dom j = (st, j)) :=
  ⟨rtp_replacedOk, rtp_noRef⟩

set_option maxRecDepth 40000 in
/-- C1 witness: concrete run of both conjuncts — a document with one local ref
is rewritten to the minimal payload, and a ref-free component is returned
identically with the state unchanged. -/
theorem c1_witness :
    (rtpAllOk envWithTask (initState defaultOpts) none docWithRef = true ∧
     replacedOk docWithRef
       (resolveReferencesToPayload envWithTask (initState defaultOpts) none docWithRef).2 =
       true) ∧
    (noRefShaped taskComponent = true ∧
     resolveReferencesToPayload emptyEnv (initState defaultOpts) none taskComponent =
       (initState defaultOpts, taskComponent)) :=
  ⟨⟨by decide, c1_reference_build_payloads.1 envWithTask (initState defaultOpts) none docWithRef (by decide)⟩,
   ⟨by decide, c1_reference_build_payloads.2 emptyEnv (initState defaultOpts) none taskComponent (by decide)⟩⟩

set_option maxRecDepth 40000 in
/-- C1 counterexample: `c1Doc` (a sys-schemas component with a ref inside
attributes.schema pointing at a missing file) passes full reference
validation, yet the build rewriter leaves a ref-shaped node in its output. -/
theorem c1_counterexample :
    (validateAllReferences emptyEnv (initState defaultOpts) c1Doc (some "core")).2.valid =
      true ∧
    noRefShaped
      (resolveReferencesToPayload emptyEnv (initState defaultOpts) (some "core") c1Doc).2 =
      false := by
  constructor <;> decide

theorem find?_setAssoc_ne {α : Type} (l : List (String × α)) {k k0 : String} (v : α)
    (h : k ≠ k0) :
    (setAssoc l k0 v).find? (fun p => p.1 == k) = l.find? (fun p => p.1 == k) := by
  induction l with
  | nil =>
      simp [setAssoc, List.find?, beq_eq_false_iff_ne.mpr (Ne.symm h)]
  | cons p fs ih =>
      cases p with
      | mk k1 v1 =>
        by_cases h1 : k1 = k0
        · subst h1
          have hk : (k1 == k) = false := beq_eq_false_iff_ne.mpr (fun e => h (e ▸ rfl))
          simp [setAssoc, List.find?, hk]
        · by_cases h2 : k1 = k
          · subst h2; simp [setAssoc, h, List.find?]
          · have hk : (k1 == k) = false := beq_eq_false_iff_ne.mpr h2
            simp [setAssoc, h1, List.find?, hk, ih]

theorem getField_jsSetJ_ne (j : Json) {k k0 : String} (v : Json) (h : k ≠ k0) :
    (jsSetJ j k0 v).getField k = j.getField k := by
  cases j <;> simp [jsSetJ, Json.getField]
  exact congrArg (Option.map Prod.snd) (find?_setAssoc_ne _ v h)

theorem getField_retime_ne (t : String) (j : Json) {k : String} (h : k ≠ "_resolvedAt") :
    (retimeJson t j).getField k = j.getField k :=
  getField_jsSetJ_ne j (.str t) h

theorem filter_setAssoc {α : Type} (l : List (String × α)) (k0 : String) (v : α)
    (p : String × α → Bool) (hp : ∀ w, p (k0, w) = false) :
    (setAssoc l k0 v).filter p = l.filter p := by
  induction l with
  | nil => simp [setAssoc, hp]
  | cons q fs ih =>
      cases q with
      | mk k1 v1 =>
        by_cases h1 : k1 = k0
        · subst h1; simp [setAssoc, hp]
        · simp [setAssoc, h1, List.filter_cons, ih]

theorem cleanMetadataFields_retime (t : String) (j : Json) :
    cleanMetadataFields (retimeJson t j) = cleanMetadataFields j := by
  cases j <;> simp [retimeJson, jsSetJ, cleanMetadataFields]
  exact filter_setAssoc _ _ _ _ (fun w => by simp)

theorem setAssoc_setAssoc_same {α : Type} (l : List (String × α)) (k : String) (x y : α) :
    setAssoc (setAssoc l k x) k y = setAssoc l k y := by
  induction l with
  | nil => simp [setAssoc]
  | cons q fs ih =>
      cases q with
      | mk k1 v1 =>
        by_cases h1 : k1 = k
        · simp [setAssoc, h1]
        · simp [setAssoc, h1, ih]

theorem setAssoc_swap_present {α : Type} (l : List (String × α)) {k k1 : String}
    (y0 b y : α) (h : k ≠ k1) :
    setAssoc (setAssoc (setAssoc l k y0) k1 b) k y =
      setAssoc (setAssoc l k y) k1 b := by
  induction l with
  | nil => simp [setAssoc, h, Ne.symm h]
  | cons q fs ih =>
      cases q with
      | mk k2 v2 =>
        by_cases h2 : k2 = k
        · subst h2
          simp [setAssoc, h, Ne.symm h]
        · by_cases h3 : k2 = k1
          · subst h3
            simp [setAssoc, h2, setAssoc_setAssoc_same]
          · simp [setAssoc, h2, h3, ih]

theorem lookup_map_snd {α β : Type} (l : List (String × α)) (k : String) (f : α → β) :
    List.lookup k (l.map (fun p => (p.1, f p.2))) = (List.lookup k l).map f := by
  induction l with
  | nil => simp [List.lookup]
  | cons q fs ih =>
      cases q with
      | mk k1 v1 =>
        by_cases h : k == k1
        · simp [List.lookup, h]
        · simp only [List.map, List.lookup, h]
          exact ih

theorem setAssoc_map_snd {α β : Type} (l : List (String × α)) (k : String) (v : α)
    (f : α → β) :
    (setAssoc l k v).map (fun p => (p.1, f p.2)) =
      setAssoc (l.map (fun p => (p.1, f p.2))) k (f v) := by
  induction l with
  | nil => simp [setAssoc]
  | cons q fs ih =>
      cases q with
      | mk k1 v1 =>
        by_cases h : k1 = k
        · simp [setAssoc, h]
        · simp [setAssoc, h, ih]

theorem retimeJson_spread2 (t : String) (c : Json) (a : String) (x : Json) (s : String) :
    retimeJson t (jsSpread c [(a, x), ("_resolvedAt", .str s)]) =
      jsSpread c [(a, x), ("_resolvedAt", .str t)] := by
  simp [jsSpread, retimeJson, jsSetJ, List.foldl, setAssoc_setAssoc_same]

theorem retimeJson_spread3 (t : String) (c : Json) (a : String) (x : Json) (s : String)
    (bv : Json) :
    retimeJson t (jsSpread c [(a, x), ("_resolvedAt", .str s), ("_packageVersion", bv)]) =
      jsSpread c [(a, x), ("_resolvedAt", .str t), ("_packageVersion", bv)] := by
  simp only [jsSpread, retimeJson, jsSetJ, List.foldl]
  exact congrArg Json.obj (setAssoc_swap_present _ _ _ _ (by decide))

theorem retimeState_ioCount (t : String) (st : RunState) (n : Nat) :
    { retimeState t st with ioCount := n } = retimeState t { st with ioCount := n } := rfl

theorem bindDomain_retime (t : String) (st : RunState) (d : Option String) :
    bindDomain (retimeState t st) d = retimeState t (bindDomain st d) := by
  simp only [bindDomain, retimeState]
  split <;> rfl

theorem resolveLocalRef_retime (env : Env) (st : RunState) (p : ParsedRef)
    (d : Option String) (t : String) :
    resolveLocalRef (retimeEnv t env) (retimeState t st) p d =
      (retimeState t (resolveLocalRef env st p d).1,
       (resolveLocalRef env st p d).2.map (retimeJson t)) := by
  simp only [resolveLocalRef, retimeEnv]
  cases h : List.lookup (if truthyStr d then d.getD "" ++ "/" ++ p.filePath else p.filePath)
      env.localFiles with
  | none => simp [h, retimeState, Except.map]
  | some content => simp [h, retimeState, Except.map, retimeJson_spread2]

theorem retimeState_currentDomain (t : String) (st : RunState) :
    (retimeState t st).currentDomain = st.currentDomain := rfl

theorem retimeState_opts (t : String) (st : RunState) :
    (retimeState t st).opts = st.opts := rfl

theorem retimeState_compiledValidators (t : String) (st : RunState) :
    (retimeState t st).compiledValidators = st.compiledValidators := rfl

theorem retimeState_warnings (t : String) (st : RunState) :
    (retimeState t st).warnings = st.warnings := rfl

theorem retimeState_refCache (t : String) (st : RunState) :
    (retimeState t st).refCache = st.refCache.map (fun p => (p.1, retimeJson t p.2)) := rfl

theorem retimeEnv_localFiles (t : String) (env : Env) :
    (retimeEnv t env).localFiles = env.localFiles := rfl

theorem retimeEnv_packages (t : String) (env : Env) :
    (retimeEnv t env).packages = env.packages := rfl

theorem retimeEnv_schemaFiles (t : String) (env : Env) :
    (retimeEnv t env).schemaFiles = env.schemaFiles := rfl

theorem retimeEnv_ajv (t : String) (env : Env) :
    (retimeEnv t env).ajv = env.ajv := rfl

theorem retimeEnv_now (t : String) (env : Env) :
    (retimeEnv t env).now = t := rfl

theorem ensurePackage_retime (env : Env) (st : RunState) (name : String) (t : String) :
    ensurePackage (retimeEnv t env) (retimeState t st) name =
      (retimeState t (ensurePackage env st name).1, (ensurePackage env st name).2) := by
  simp only [ensurePackage, retimeEnv_packages]
  cases h : List.lookup name env.packages <;> simp [h, retimeState]

theorem resolveExternalRef_retime (env : Env) (st : RunState) (p : ParsedRef) (t : String) :
    resolveExternalRef (retimeEnv t env) (retimeState t st) p =
      (retimeState t (resolveExternalRef env st p).1,
       (resolveExternalRef env st p).2.map (retimeJson t)) := by
  rcases hE : ensurePackage env st (p.packageName.getD "") with ⟨st1, r⟩
  have hR := ensurePackage_retime env st (p.packageName.getD "") t
  rw [hE] at hR
  simp only [resolveExternalRef, hE, hR]
  cases r with
  | error e => simp [Except.map]
  | ok pkg =>
      simp only
      rcases hc : List.lookup "vnext.config.json" pkg.files with _ | cfg
      · simp [hc, retimeState, Except.map]
      · simp only [hc]
        by_cases hx : isComponentExported p.filePath cfg
        · simp only [hx, Bool.not_true, Bool.false_eq_true, if_false]
          rcases hf : List.lookup p.filePath pkg.files with _ | content <;>
            simp [hf, retimeState, Except.map, retimeEnv_now, retimeJson_spread3]
        · simp [hx, retimeState, Except.map]

theorem validateReferenceConsistency_retime (ref : String) (v : Json) (p : ParsedRef)
    (t : String) :
    validateReferenceConsistency ref (retimeJson t v) p =
      validateReferenceConsistency ref v p := by
  have hk := getField_retime_ne t v (show "key" ≠ "_resolvedAt" by decide)
  have hv := getField_retime_ne t v (show "version" ≠ "_resolvedAt" by decide)
  simp only [validateReferenceConsistency, consistencyTail, hk, hv]

theorem runCompiledValidator_retime (env : Env) (st : RunState) (m c : Json) (ty : String)
    (t : String) :
    runCompiledValidator (retimeEnv t env) (retimeState t st) m c ty =
      (retimeState t (runCompiledValidator env st m c ty).1,
       (runCompiledValidator env st m c ty).2) := by
  simp only [runCompiledValidator, retimeEnv_ajv]
  cases h : env.ajv m c <;> simp [h, retimeState]

theorem validateComponentSchema_retime (env : Env) (st : RunState) (v : Json)
    (fp : String) (t : String) :
    validateComponentSchema (retimeEnv t env) (retimeState t st) (retimeJson t v) fp =
      (retimeState t (validateComponentSchema env st v fp).1,
       (validateComponentSchema env st v fp).2) := by
  simp only [validateComponentSchema, cleanMetadataFields_retime, retimeState_currentDomain,
    retimeState_compiledValidators, retimeEnv_schemaFiles]
  split
  · simp [retimeState]
  · split
    · simp [retimeState]
    · rcases hm : List.lookup (detectComponentType fp ++ "-definition.schema.json")
          st.compiledValidators with _ | modSchema
      · simp only [hm]
        rcases hs : List.lookup (detectComponentType fp ++ "-definition.schema.json")
            env.schemaFiles with _ | schema
        · simp [hs, retimeState]
        · simp only [hs]
          have hrc := runCompiledValidator_retime env
            { st with
                ioCount := st.ioCount + 1
                compiledValidators := setAssoc st.compiledValidators
                  (detectComponentType fp ++ "-definition.schema.json")
                  (makeVersionOptionalInSchema schema) }
            (makeVersionOptionalInSchema schema) (cleanMetadataFields v)
            (detectComponentType fp) t
          simpa [retimeState] using hrc
      · simp only [hm]
        exact runCompiledValidator_retime env st modSchema (cleanMetadataFields v)
          (detectComponentType fp) t

theorem retimeState_consistencyChecks (t : String) (st : RunState) :
    (retimeState t st).consistencyChecks = st.consistencyChecks := rfl

theorem retimeState_schemaChecks (t : String) (st : RunState) :
    (retimeState t st).schemaChecks = st.schemaChecks := rfl

theorem retimeState_upd_cc (t : String) (st : RunState) (n : Nat) :
    { retimeState t st with consistencyChecks := n } =
      retimeState t { st with consistencyChecks := n } := rfl

theorem retimeState_upd_sc (t : String) (st : RunState) (n : Nat) :
    { retimeState t st with schemaChecks := n } =
      retimeState t { st with schemaChecks := n } := rfl

theorem validatePlainReference_retime (env : Env) (st : RunState) (obj : Json)
    (d : Option String) (t : String) :
    validatePlainReference (retimeEnv t env) (retimeState t st) obj d =
      (retimeState t (validatePlainReference env st obj d).1,
       (validatePlainReference env st obj d).2.map (retimeJson t)) := by
  simp only [validatePlainReference, retimeEnv_now]
  repeat' split
  all_goals simp [retimeState, Except.map, retimeJson_spread2]

theorem resolveRef_retime (env : Env) (st : RunState) (ref : String) (d : Option String)
    (t : String) :
    resolveRef (retimeEnv t env) (retimeState t st) ref d =
      (retimeState t (resolveRef env st ref d).1,
       (resolveRef env st ref d).2.map (retimeJson t)) := by
  rcases hL : List.lookup ref (bindDomain st d).refCache with _ | v0
  case some =>
    simp [resolveRef, bindDomain_retime, retimeState_refCache, lookup_map_snd, hL, Except.map]
  case none =>
  rcases hP : parseRef ref with e0 | p
  case error =>
    simp [resolveRef, bindDomain_retime, retimeState_refCache, lookup_map_snd, hL, hP,
      Except.map]
  case ok =>
  rcases hS : (if p.isLocal then resolveLocalRef env (bindDomain st d) p d
      else resolveExternalRef env (bindDomain st d) p) with ⟨st1, r1⟩
  have hS' : (if p.isLocal then resolveLocalRef (retimeEnv t env)
        (retimeState t (bindDomain st d)) p d
      else resolveExternalRef (retimeEnv t env) (retimeState t (bindDomain st d)) p) =
      (retimeState t st1, r1.map (retimeJson t)) := by
    by_cases hl : p.isLocal
    · rw [if_pos hl] at hS ⊢
      rw [resolveLocalRef_retime, hS]
    · rw [if_neg hl] at hS ⊢
      rw [resolveExternalRef_retime, hS]
  cases r1 with
  | error e1 =>
      simp only [resolveRef, bindDomain_retime, retimeState_refCache, lookup_map_snd, hL,
        Option.map_none', hP, hS, hS', Except.map]
  | ok content =>
  by_cases hco : st1.opts.validateReferenceConsistency
  · rcases hvc : validateReferenceConsistency ref content p with e2 | u2
    · simp only [resolveRef, bindDomain_retime, retimeState_refCache, lookup_map_snd, hL,
        Option.map_none', hP, hS, hS', Except.map, retimeState_opts, hco,
        validateReferenceConsistency_retime, hvc, if_true]
      simp [retimeState]
    · by_cases hvs : st1.opts.validateSchemas
      · rcases hV : validateComponentSchema env
            { st1 with consistencyChecks := st1.consistencyChecks + 1,
                       schemaChecks := st1.schemaChecks + 1 } content p.filePath
          with ⟨st3, r3⟩
        have hV' := validateComponentSchema_retime env
          { st1 with consistencyChecks := st1.consistencyChecks + 1,
                     schemaChecks := st1.schemaChecks + 1 } content p.filePath t
        rw [hV] at hV'
        simp only [retimeState] at hV'
        cases r3 with
        | error e3 =>
            simp only [resolveRef, bindDomain_retime, retimeState_refCache, lookup_map_snd,
              hL, Option.map_none', hP, hS, hS', Except.map, retimeState_opts, hco, hvs,
              validateReferenceConsistency_retime, hvc]
            simp [retimeState, Except.map, hV, hV', setAssoc_map_snd, hco, hvs]
        | ok u3 =>
            simp only [resolveRef, bindDomain_retime, retimeState_refCache, lookup_map_snd,
              hL, Option.map_none', hP, hS, hS', Except.map, retimeState_opts, hco, hvs,
              validateReferenceConsistency_retime, hvc]
            simp [retimeState, Except.map, hV, hV', setAssoc_map_snd, hco, hvs]
      · simp only [resolveRef, bindDomain_retime, retimeState_refCache, lookup_map_snd, hL,
          Option.map_none', hP, hS, hS', Except.map, retimeState_opts, hco, hvs,
          validateReferenceConsistency_retime, hvc, if_true]
        simp [retimeState, setAssoc_map_snd, hco, hvs]
  · by_cases hvs : st1.opts.validateSchemas
    · rcases hV : validateComponentSchema env
          { st1 with schemaChecks := st1.schemaChecks + 1 } content p.filePath
        with ⟨st3, r3⟩
      have hV' := validateComponentSchema_retime env
        { st1 with schemaChecks := st1.schemaChecks + 1 } content p.filePath t
      rw [hV] at hV'
      simp only [retimeState] at hV'
      cases r3 with
      | error e3 =>
          simp only [resolveRef, bindDomain_retime, retimeState_refCache, lookup_map_snd,
            hL, Option.map_none', hP, hS, hS', Except.map, retimeState_opts, hco, hvs]
          simp [retimeState, Except.map, hV, hV', setAssoc_map_snd, hco, hvs]
      | ok u3 =>
          simp only [resolveRef, bindDomain_retime, retimeState_refCache, lookup_map_snd,
            hL, Option.map_none', hP, hS, hS', Except.map, retimeState_opts, hco, hvs]
          simp [retimeState, Except.map, hV, hV', setAssoc_map_snd, hco, hvs]
    · simp only [resolveRef, bindDomain_retime, retimeState_refCache, lookup_map_snd, hL,
        Option.map_none', hP, hS, hS', Except.map, retimeState_opts, hco, hvs]
      simp [retimeState, setAssoc_map_snd, hco, hvs]

theorem processDetectedRef_retime (env : Env) (info : RefFormat) (node : Json)
    (d : Option String) (st : RunState) (res : ValidationResults) (t : String) :
    processDetectedRef (retimeEnv t env) info node d (retimeState t st, res) =
      (retimeState t (processDetectedRef env info node d (st, res)).1,
       (processDetectedRef env info node d (st, res)).2) := by
  simp only [processDetectedRef]
  by_cases hp : (info.format == "plain") = true
  · rcases hstep : validatePlainReference env st node d with ⟨st1, r⟩
    have h' := validatePlainReference_retime env st node d t
    rw [hstep] at h'
    simp only [hp, if_true, h', hstep]
    cases r with
    | error e => simp [Except.map]
    | ok v =>
        have h1 := getField_retime_ne t v (show "_resolvedFrom" ≠ "_resolvedAt" by decide)
        have h2 := getField_retime_ne t v (show "key" ≠ "_resolvedAt" by decide)
        have h3 := getField_retime_ne t v (show "version" ≠ "_resolvedAt" by decide)
        have h4 := getField_retime_ne t v (show "domain" ≠ "_resolvedAt" by decide)
        have h5 := getField_retime_ne t v (show "flow" ≠ "_resolvedAt" by decide)
        simp [Except.map, h1, h2, h3, h4, h5]
  · rcases hstep : resolveRef env st info.identifier d with ⟨st1, r⟩
    have h' := resolveRef_retime env st info.identifier d t
    rw [hstep] at h'
    simp only [hp, Bool.false_eq_true, if_false, h', hstep]
    cases r with
    | error e => simp [Except.map]
    | ok v =>
        have h1 := getField_retime_ne t v (show "_resolvedFrom" ≠ "_resolvedAt" by decide)
        have h2 := getField_retime_ne t v (show "key" ≠ "_resolvedAt" by decide)
        have h3 := getField_retime_ne t v (show "version" ≠ "_resolvedAt" by decide)
        have h4 := getField_retime_ne t v (show "domain" ≠ "_resolvedAt" by decide)
        have h5 := getField_retime_ne t v (show "flow" ≠ "_resolvedAt" by decide)
        simp [Except.map, h1, h2, h3, h4, h5]

mutual
theorem walkRec_retime : ∀ (env : Env) (j : Json) (dom : Option String) (ctx : WalkCtx)
    (st : RunState) (res : ValidationResults) (t : String),
    validateReferencesRecursive (retimeEnv t env) j dom ctx (retimeState t st, res) =
      (retimeState t (validateReferencesRecursive env j dom ctx (st, res)).1,
       (validateReferencesRecursive env j dom ctx (st, res)).2)
  | env, .null, dom, ctx, st, res, t => by simp [validateReferencesRecursive]
  | env, .bool b, dom, ctx, st, res, t => by simp [validateReferencesRecursive]
  | env, .num n, dom, ctx, st, res, t => by simp [validateReferencesRecursive]
  | env, .str s, dom, ctx, st, res, t => by simp [validateReferencesRecursive]
  | env, .arr xs, dom, ctx, st, res, t => by
      simpa [validateReferencesRecursive] using walkList_retime env xs dom ctx st res t
  | env, .obj fs, dom, ctx, st, res, t => by
      simp only [validateReferencesRecursive]
      by_cases hc : ctx.isInSchemaDefinition = true
      · simp [hc]
      · simp only [hc, Bool.false_eq_true, if_false]
        cases hd : detectReferenceFormat (.obj fs) with
        | none => exact walkFields_retime env fs dom ctx st res t
        | some info =>
            rcases hpd : processDetectedRef env info (.obj fs) dom (st, res) with ⟨st1, res1⟩
            have h' := processDetectedRef_retime env info (.obj fs) dom st res t
            rw [hpd] at h'
            simp only [h', hpd]
            exact walkFields_retime env fs dom ctx st1 res1 t
theorem walkList_retime : ∀ (env : Env) (xs : List Json) (dom : Option String)
    (ctx : WalkCtx) (st : RunState) (res : ValidationResults) (t : String),
    validateReferencesRecursiveList (retimeEnv t env) xs dom ctx (retimeState t st, res) =
      (retimeState t (validateReferencesRecursiveList env xs dom ctx (st, res)).1,
       (validateReferencesRecursiveList env xs dom ctx (st, res)).2)
  | env, [], dom, ctx, st, res, t => by simp [validateReferencesRecursiveList]
  | env, x :: xs, dom, ctx, st, res, t => by
      simp only [validateReferencesRecursiveList]
      rcases hr : validateReferencesRecursive env x dom ctx (st, res) with ⟨st1, res1⟩
      have h' := walkRec_retime env x dom ctx st res t
      rw [hr] at h'
      simp only [h', hr]
      exact walkList_retime env xs dom ctx st1 res1 t
theorem walkFields_retime : ∀ (env : Env) (fs : List (String × Json)) (dom : Option String)
    (ctx : WalkCtx) (st : RunState) (res : ValidationResults) (t : String),
    validateReferencesRecursiveFields (retimeEnv t env) fs dom ctx (retimeState t st, res) =
      (retimeState t (validateReferencesRecursiveFields env fs dom ctx (st, res)).1,
       (validateReferencesRecursiveFields env fs dom ctx (st, res)).2)
  | env, [], dom, ctx, st, res, t => by simp [validateReferencesRecursiveFields]
  | env, (k, v) :: fs, dom, ctx, st, res, t => by
      simp only [validateReferencesRecursiveFields]
      by_cases hk : (k == "ref") = true
      · simp only [hk, if_true]
        exact walkFields_retime env fs dom ctx st res t
      · simp only [hk, Bool.false_eq_true, if_false]
        rcases hr : validateReferencesRecursive env v dom
            { isInSchemaDefinition :=
                ctx.isInSchemaDefinition || (k == "schema" && ctx.isInAttributes),
              isInAttributes := ctx.isInAttributes || k == "attributes" } (st, res)
          with ⟨st1, res1⟩
        have h' := walkRec_retime env v dom
          { isInSchemaDefinition :=
              ctx.isInSchemaDefinition || (k == "schema" && ctx.isInAttributes),
            isInAttributes := ctx.isInAttributes || k == "attributes" } st res t
        rw [hr] at h'
        simp only [h', hr]
        exact walkFields_retime env fs dom ctx st1 res1 t
end

theorem validateAllReferences_retime (env : Env) (st : RunState) (j : Json)
    (dom : Option String) (t : String) :
    validateAllReferences (retimeEnv t env) (retimeState t st) j dom =
      (retimeState t (validateAllReferences env st j dom).1,
       (validateAllReferences env st j dom).2) := by
  simp only [validateAllReferences, bindDomain_retime]
  rcases hw : validateReferencesRecursive env j dom ⟨false, false⟩
      (bindDomain st dom,
       { valid := true, errors := [], resolvedRefs := [], validationDetails := ⟨0, 0, 0, 0⟩ })
    with ⟨st1, res1⟩
  have h' := walkRec_retime env j dom ⟨false, false⟩ (bindDomain st dom)
    { valid := true, errors := [], resolvedRefs := [], validationDetails := ⟨0, 0, 0, 0⟩ } t
  rw [hw] at h'
  simp only [h', hw]

theorem payloadOf_retime (t : String) (v : Json) :
    payloadOf (retimeJson t v) = payloadOf v := by
  have h2 := getField_retime_ne t v (show "key" ≠ "_resolvedAt" by decide)
  have h3 := getField_retime_ne t v (show "version" ≠ "_resolvedAt" by decide)
  have h4 := getField_retime_ne t v (show "domain" ≠ "_resolvedAt" by decide)
  have h5 := getField_retime_ne t v (show "flow" ≠ "_resolvedAt" by decide)
  simp [payloadOf, List.filterMap_cons, List.filterMap_nil, h2, h3, h4, h5]

mutual
theorem rtp_retime : ∀ (env : Env) (st : RunState) (dom : Option String) (j : Json)
    (t : String),
    resolveReferencesToPayload (retimeEnv t env) (retimeState t st) dom j =
      (retimeState t (resolveReferencesToPayload env st dom j).1,
       (resolveReferencesToPayload env st dom j).2)
  | env, st, dom, .null, t => by simp [resolveReferencesToPayload]
  | env, st, dom, .bool b, t => by simp [resolveReferencesToPayload]
  | env, st, dom, .num n, t => by simp [resolveReferencesToPayload]
  | env, st, dom, .str s, t => by simp [resolveReferencesToPayload]
  | env, st, dom, .arr xs, t => by
      simp only [resolveReferencesToPayload]
      rcases hr : rtpList env st dom xs with ⟨st1, ys⟩
      have h' := rtpList_retime env st dom xs t
      rw [hr] at h'
      simp [h', hr]
  | env, st, dom, .obj fs, t => by
      by_cases hrf : refShapedFields fs = true
      · simp only [resolveReferencesToPayload, hrf, if_true]
        rcases hr : resolveRef env st (refStringOf fs) dom with ⟨st1, r⟩
        have h' := resolveRef_retime env st (refStringOf fs) dom t
        rw [hr] at h'
        simp only [h', hr]
        cases r with
        | error e => simp [Except.map]
        | ok v => simp [Except.map, payloadOf_retime]
      · simp only [resolveReferencesToPayload, hrf, Bool.false_eq_true, if_false]
        rcases hr : rtpFields env st dom fs with ⟨st1, gs⟩
        have h' := rtpFields_retime env st dom fs t
        rw [hr] at h'
        simp [h', hr]
theorem rtpList_retime : ∀ (env : Env) (st : RunState) (dom : Option String)
    (xs : List Json) (t : String),
    rtpList (retimeEnv t env) (retimeState t st) dom xs =
      (retimeState t (rtpList env st dom xs).1, (rtpList env st dom xs).2)
  | env, st, dom, [], t => by simp [rtpList]
  | env, st, dom, x :: xs, t => by
      simp only [rtpList]
      rcases h1 : resolveReferencesToPayload env st dom x with ⟨st1, y⟩
      have h1' := rtp_retime env st dom x t
      rw [h1] at h1'
      rcases h2 : rtpList env st1 dom xs with ⟨st2, ys⟩
      have h2' := rtpList_retime env st1 dom xs t
      rw [h2] at h2'
      simp [h1, h1', h2, h2']
theorem rtpFields_retime : ∀ (env : Env) (st : RunState) (dom : Option String)
    (fs : List (String × Json)) (t : String),
    rtpFields (retimeEnv t env) (retimeState t st) dom fs =
      (retimeState t (rtpFields env st dom fs).1, (rtpFields env st dom fs).2)
  | env, st, dom, [], t => by simp [rtpFields]
  | env, st, dom, (k, v) :: fs, t => by
      simp only [rtpFields]
      rcases h1 : resolveReferencesToPayload env st dom v with ⟨st1, y⟩
      have h1' := rtp_retime env st dom v t
      rw [h1] at h1'
      rcases h2 : rtpFields env st1 dom fs with ⟨st2, gs⟩
      have h2' := rtpFields_retime env st1 dom fs t
      rw [h2] at h2'
      simp [h1, h1', h2, h2']
end

theorem find?_setAssoc_self {α : Type} : ∀ (l : List (String × α)) (k : String) (v : α),
    (setAssoc l k v).find? (fun p => p.1 == k) = some (k, v)
  | [], k, v => by simp [setAssoc, List.find?]
  | (k1, v1) :: fs, k, v => by
      by_cases h : k1 = k
      · subst h
        simp [setAssoc, List.find?]
      · have hk : (k1 == k) = false := beq_eq_false_iff_ne.mpr h
        simp [setAssoc, h, List.find?, hk, find?_setAssoc_self fs k v]

theorem filter_setAssoc_then {α : Type} (p : String × α → Bool) {k0 k1 : String}
    (hk : k0 ≠ k1) (hp : ∀ w, p (k0, w) = false) :
    ∀ (l : List (String × α)) (x y v : α),
    (setAssoc (setAssoc l k0 x) k1 v).filter p =
      (setAssoc (setAssoc l k0 y) k1 v).filter p
  | [], x, y, v => by simp [setAssoc, hk, hp]
  | (k2, w) :: fs, x, y, v => by
      by_cases h2 : k2 = k0
      · subst h2
        simp [setAssoc, hk, hp]
      · by_cases h3 : k2 = k1
        · subst h3
          simp [setAssoc, h2, List.filter_cons, filter_setAssoc _ _ _ _ hp]
        · simp [setAssoc, h2, h3, List.filter_cons,
            filter_setAssoc_then p hk hp fs x y v]

theorem dropBT_aux (R A : Json) (ty t1 t2 : String) (orig : Option Json) :
    dropBuildTimestamp (jsSetJ R "amorphie" (jsSpread A
        ([("buildType", .str ty), ("buildTimestamp", .str t1)] ++
          (match orig with | some v => [("originalPackage", v)] | none => [])))) =
      dropBuildTimestamp (jsSetJ R "amorphie" (jsSpread A
        ([("buildType", .str ty), ("buildTimestamp", .str t2)] ++
          (match orig with | some v => [("originalPackage", v)] | none => [])))) := by
  cases orig with
  | none =>
      cases R with
      | obj rfs =>
          simp only [jsSpread, List.cons_append, List.nil_append, List.foldl, jsSetJ,
            dropBuildTimestamp, Json.getField, find?_setAssoc_self, Option.map_some',
            setAssoc_setAssoc_same]
          have hpbt : ∀ w : Json,
              (fun q : String × Json => decide (q.1 ≠ "buildTimestamp"))
                ("buildTimestamp", w) = false := fun w => by simp
          rw [filter_setAssoc (setAssoc (jsSpreadBase A) "buildType" (Json.str ty))
              "buildTimestamp" (Json.str t1) _ hpbt,
            filter_setAssoc (setAssoc (jsSpreadBase A) "buildType" (Json.str ty))
              "buildTimestamp" (Json.str t2) _ hpbt]
      | null => rfl
      | bool b => rfl
      | num n => rfl
      | str s => rfl
      | arr xs => rfl
  | some v =>
      cases R with
      | obj rfs =>
          simp only [jsSpread, List.cons_append, List.nil_append, List.foldl, jsSetJ,
            dropBuildTimestamp, Json.getField, find?_setAssoc_self, Option.map_some',
            setAssoc_setAssoc_same]
          have hpbt : ∀ w : Json,
              (fun q : String × Json => decide (q.1 ≠ "buildTimestamp"))
                ("buildTimestamp", w) = false := fun w => by simp
          rw [filter_setAssoc_then _
            (show "buildTimestamp" ≠ "originalPackage" by decide) hpbt]
      | null => rfl
      | bool b => rfl
      | num n => rfl
      | str s => rfl
      | arr xs => rfl

theorem mkBuildPackageJson_dropTimestamp (pkg : Json) (ty t1 t2 : String) :
    dropBuildTimestamp (mkBuildPackageJson pkg ty t1) =
      dropBuildTimestamp (mkBuildPackageJson pkg ty t2) := by
  simp only [mkBuildPackageJson]
  exact dropBT_aux _ _ _ t1 t2 _

theorem retimeState_init (t : String) (opts : ResolverOpts) :
    retimeState t (initState opts) = initState opts := by
  simp [retimeState, initState]

/-- C9: determinism of repeated runs.  The claim "build artifacts are equal
across two runs" is refuted by `c9_counterexample`: the emitted
`package.json` embeds `amorphie.buildTimestamp`, the wall clock, which
differs between runs.  Modulo that timestamp the pipeline is
deterministic: (1) built `package.json` files from two runs agree after
dropping `amorphie.buildTimestamp`; (2) the validation results of
`validateAllReferences` from a fresh resolver are invariant under the
wall-clock reading (only `_resolvedAt` provenance inside the resolver
cache varies); (3) the reference-build payload rewriting
`resolveReferencesToPayload` from a fresh resolver produces identical
output documents regardless of the wall clock. -/
theorem c9_determinism_modulo_timestamp :
    (∀ (pkg : Json) (ty t1 t2 : String),
      dropBuildTimestamp (mkBuildPackageJson pkg ty t1) =
        dropBuildTimestamp (mkBuildPackageJson pkg ty t2)) ∧
    (∀ (env : Env) (t : String) (opts : ResolverOpts) (j : Json) (dom : Option String),
      (validateAllReferences (retimeEnv t env) (initState opts) j dom).2 =
        (validateAllReferences env (initState opts) j dom).2) ∧
    (∀ (env : Env) (t : String) (opts : ResolverOpts) (dom : Option String) (j : Json),
      (resolveReferencesToPayload (retimeEnv t env) (initState opts) dom j).2 =
        (resolveReferencesToPayload env (initState opts) dom j).2) := by
  refine ⟨mkBuildPackageJson_dropTimestamp, fun env t opts j dom => ?_,
    fun env t opts dom j => ?_⟩
  · have h := validateAllReferences_retime env (initState opts) j dom t
    rw [retimeState_init] at h
    rw [h]
  · have h := rtp_retime env (initState opts) dom j t
    rw [retimeState_init] at h
    rw [h]

set_option maxRecDepth 10000 in
/-- C9 counterexample: the same `package.json` built at two different
wall-clock instants yields different artifacts (`buildTimestamp`
differs). -/
theorem c9_counterexample :
    mkBuildPackageJson samplePackageJson "reference" "2024-01-01T00:00:00.000Z" ≠
      mkBuildPackageJson samplePackageJson "reference" "2024-01-02T00:00:00.000Z" := by
  decide
